import Mathlib

/-!
Shallow embedding of `scripts/validate_commit_msg.py` (class
`CommitMessageValidator`), a Conventional-Commits commit-message validator.

Strings are modelled as `String` / `List Char`; Python builtins used by the
script (`str.strip`, `str.split`, `str.lower`, `str.find`, `str.isupper`,
`str.endswith`, slicing) are embedded explicitly below, with their Unicode
behaviour (whitespace set, case tables, the extra case equivalences of
`re.IGNORECASE`) taken from CPython 3.11 / Unicode database 14.0.0 by
exhaustive enumeration over all code points; each such definition records
what was enumerated.  The two regular expressions of the script are small
and backtracking-free in effect, and are embedded as deterministic matchers;
comments at each definition record the correspondence.

The validator instance keeps `self.errors` / `self.warnings` buffers that are
reset at the start of `validate_commit_message`; each sub-check is embedded as
a function returning `(ok, errors appended, warnings appended)` and the
orchestrator concatenates the buffers in execution order, which reproduces the
mutation order of the Python code.
-/

/-- Python whitespace for `str.strip()` / `str.split()`.  CPython (3.11,
Unicode database 14.0.0) treats exactly 29 code points as `str.isspace()`
whitespace, obtained here by exhaustive enumeration over all code points:
the ASCII controls TAB, LF, VT, FF, CR, the information separators
U+001C-U+001F, SPACE, NEL U+0085, NBSP U+00A0, OGHAM SPACE MARK U+1680, the
typographic spaces U+2000-U+200A, LINE SEPARATOR U+2028, PARAGRAPH SEPARATOR
U+2029, NARROW NBSP U+202F, MEDIUM MATHEMATICAL SPACE U+205F and IDEOGRAPHIC
SPACE U+3000.  `str.strip()` with no argument and `str.split()` with no
argument act on exactly this set. -/
def pyIsSpace (c : Char) : Bool :=
  c = ' ' || c = '\t' || c = '\n' || c = '\r' || c = '\x0b' || c = '\x0c' ||
  c = '\x1c' || c = '\x1d' || c = '\x1e' || c = '\x1f' ||
  [0x85, 0xa0, 0x1680, 0x2000, 0x2001, 0x2002, 0x2003, 0x2004, 0x2005,
   0x2006, 0x2007, 0x2008, 0x2009, 0x200a, 0x2028, 0x2029, 0x202f, 0x205f,
   0x3000].any fun n => c.toNat = n

/-- Python `str.strip()` on a character list: drop leading and trailing
whitespace. -/
def pyStripL (l : List Char) : List Char :=
  ((l.dropWhile pyIsSpace).reverse.dropWhile pyIsSpace).reverse

/-- Python `str.strip()`. -/
def pyStrip (s : String) : String :=
  String.mk (pyStripL s.toList)

/-- Python `str.split('\n')`: split on every newline, keeping empty pieces;
the result is never empty (`''.split('\n') == ['']`). -/
def splitOnNl : List Char → List (List Char)
  | [] => [[]]
  | c :: t =>
    if c = '\n' then [] :: splitOnNl t
    else
      match splitOnNl t with
      | [] => [[c]]
      | l :: ls => (c :: l) :: ls

/-- Python `str.lower()` of a single character, as a character list because
CPython lowercasing is one-to-many: `'İ'` (LATIN CAPITAL LETTER I WITH
DOT ABOVE) lowercases to the two code points `i` followed by `'̇'`
(COMBINING DOT ABOVE).  The table is exact on `A`-`Z` (shift by 32), on
U+0130 and on U+212A (KELVIN SIGN, which lowercases to `k`); every other
code point is mapped to itself.  This is observationally exact for the
script: the lowered type token consists of characters of the `[a-z]`
IGNORECASE class below, where the table is exact (U+0131 and U+017F are
their own lowercase), and all other lowered strings are only compared for
equality with the pure-ASCII tables `VAGUE_WORDS` and
`IMPERATIVE_INDICATORS` - by exhaustive enumeration the sole non-ASCII code
point whose CPython lowercase is a pure-ASCII string is U+212A, so for every
character outside the table both the real lowercase and the identity leave a
non-ASCII character in the string and both sides of such a comparison are
false. -/
def pyLowerChar (c : Char) : List Char :=
  if c.toNat ≥ 65 ∧ c.toNat ≤ 90 then [Char.toLower c]
  else if c.toNat = 0x130 then ['i', Char.ofNat 0x307]
  else if c.toNat = 0x212a then ['k']
  else [c]

/-- Python `str.lower()` on a character list: concatenation of the
per-character lowercasings. -/
def pyLower : List Char → List Char
  | [] => []
  | c :: t => pyLowerChar c ++ pyLower t

/-- Accumulator for `pyWords`: current word (reversed) while scanning. -/
def pyWordsAux : List Char → List Char → List (List Char)
  | [], acc => if acc.isEmpty then [] else [acc.reverse]
  | c :: t, acc =>
    if pyIsSpace c then
      (if acc.isEmpty then [] else [acc.reverse]) ++ pyWordsAux t []
    else pyWordsAux t (c :: acc)

/-- Python `str.split()` with no argument: maximal runs of non-whitespace;
never yields empty words. -/
def pyWords (l : List Char) : List (List Char) :=
  pyWordsAux l []

/-- Python `header.find(': ')`: index of the first occurrence of colon-space,
`none` for Python's `-1`. -/
def findColonSpace : List Char → Option Nat
  | [] => none
  | c :: t =>
    if c = ':' ∧ t.head? = some ' ' then some 0
    else (findColonSpace t).map (· + 1)

/-- A single quote character, used when assembling the f-strings of the
script (written via `Char.ofNat` to keep the embedding ASCII-clean). -/
def sQuote : String := String.singleton (Char.ofNat 39)

/-- Keys of the `VALID_TYPES` dict of the script, in insertion order (the dict
values are prose descriptions that the validator never reads). -/
def VALID_TYPES : List String :=
  ["feat", "fix", "docs", "style", "refactor", "perf", "test", "build",
   "ci", "chore", "revert", "security", "deps", "remove"]

/-- The `VALID_SCOPES` set of the script, in source order. -/
def VALID_SCOPES : List String :=
  ["cli", "watch", "test", "processor", "runner", "cache", "ui", "display",
   "colors", "icons", "config", "app", "events", "models", "metrics",
   "complexity", "benchmarks", "integration", "recovery", "coordinator",
   "debouncer", "watcher", "core", "renderer", "docs", "scripts", "ci",
   "makefile", "hooks", "quality", "performance", "security", "deps"]

/-- Lexicographic code-point comparison of character lists, the order Python
`sorted` uses on strings. -/
def leChars : List Char → List Char → Bool
  | [], _ => true
  | _ :: _, [] => false
  | a :: as, b :: bs =>
    if a = b then leChars as bs else decide (a.toNat < b.toNat)

/-- Python string comparison `s <= t`. -/
def pyStrLe (s t : String) : Bool := leChars s.toList t.toList

/-- Insertion into an ascending list, for `sortStrings`. -/
def insertSorted (s : String) : List String → List String
  | [] => [s]
  | t :: ts => if pyStrLe s t then s :: t :: ts else t :: insertSorted s ts

/-- Insertion sort on strings: Python `sorted` (ascending, lexicographic by
code point). -/
def sortStrings : List String → List String
  | [] => []
  | s :: ts => insertSorted s (sortStrings ts)

/-- Python `sorted(VALID_SCOPES)`. -/
def sortedScopes : List String :=
  sortStrings VALID_SCOPES

/-- The alternation of the header regex in `validate_format`, in pattern
order; textually identical to the `VALID_TYPES` keys. -/
def FORMAT_TYPES : List String :=
  ["feat", "fix", "docs", "style", "refactor", "perf", "test", "build",
   "ci", "chore", "revert", "security", "deps", "remove"]

/-- The `vague_words` list of `validate_content_quality`. -/
def VAGUE_WORDS : List String :=
  ["fix", "update", "change", "modify", "improve", "refactor", "cleanup"]

/-- The `imperative_indicators` list of `validate_content_quality`. -/
def IMPERATIVE_INDICATORS : List String :=
  ["add", "fix", "remove", "update", "improve", "refactor", "implement",
   "create", "delete", "enhance", "optimize", "clean", "extract",
   "rename", "move", "split", "merge", "integrate", "configure",
   "resolve", "install", "setup", "build", "deploy", "release"]

/-- Character class `[a-z]` under `re.IGNORECASE`: the flag applies to
character ranges, so `[a-z]` also matches `A`-`Z`, and CPython additionally
matches the code points whose case folds into the range: U+0130 (LATIN
CAPITAL LETTER I WITH DOT ABOVE), U+0131 (LATIN SMALL LETTER DOTLESS I),
U+017F (LATIN SMALL LETTER LONG S) and U+212A (KELVIN SIGN).  Verified by
exhaustive enumeration of `re.fullmatch` over all code points: exactly these
56 characters match. -/
def classAZI (c : Char) : Bool :=
  c.isAlpha || c.toNat = 0x130 || c.toNat = 0x131 || c.toNat = 0x17f ||
    c.toNat = 0x212a

/-- Character class `[a-z-]` of the scope group under `re.IGNORECASE`: the
class above plus the hyphen (which has no case variants). -/
def scopeClassI (c : Char) : Bool :=
  classAZI c || c = '-'

/-- The literal `: ` followed by `.+` of both header regexes (`re.match`, so
nothing is required after the first description character; `.` does not match
a newline). -/
def matchSepDesc : List Char → Bool
  | c1 :: c2 :: c3 :: _ => c1 = ':' && c2 = ' ' && c3 ≠ '\n'
  | _ => false

/-- The `(!)?: .+` tail of the header regexes.  An optional group accepts a
string when either branch does, hence the disjunction; when the input starts
with `!` the bang-less branch would need `:` at the `!` and always fails, so
the two branches never overlap. -/
def matchBangSep : List Char → Bool
  | [] => false
  | c :: r2 => (c = '!' && matchSepDesc r2) || matchSepDesc (c :: r2)

/-- The optional scope group `\(([a-z-]+)\)` under `re.IGNORECASE`: an opening
parenthesis, a non-empty run of letters/hyphens, a closing parenthesis.  The
run is computed with `takeWhile`: since `)` is not in the class, the greedy
run is the only split the regex engine can close with `)` (shortening the run
leaves a class character, never `)`, in closing position). -/
def parenScope : List Char → Option (List Char × List Char)
  | [] => none
  | c :: rest =>
    if c = '(' then
      if (rest.takeWhile scopeClassI).isEmpty then none
      else
        match rest.dropWhile scopeClassI with
        | c2 :: r2 => if c2 = ')' then some (rest.takeWhile scopeClassI, r2) else none
        | [] => none
    else none

/-- The `(\([a-z-]+\))?(!)?: .+` tail of the format regex.  The no-scope
branch of the optional group needs `!` or `:` first, so it can never succeed
on input starting with `(`; the disjunction is exactly the regex union. -/
def matchAfterType (r : List Char) : Bool :=
  (match parenScope r with
   | some (_, r2) => matchBangSep r2
   | none => false) || matchBangSep r

/-- Matching of one pattern literal against one input character under
`re.IGNORECASE`.  Every literal character of the script's two patterns is
ASCII; for an ASCII pattern character `p`, CPython matches input `x` exactly
when `x` equals `p` up to ASCII case or the pair is one of the extra Unicode
case equivalences `i` ~ U+0130 / U+0131, `s` ~ U+017F, `k` ~ U+212A.
Verified by exhaustive enumeration over all input code points for each
lowercase pattern letter (for non-letter literals such as `:`, ` `, `(`,
`!` only `x = p` matches, which the definition also yields). -/
def litEqCI (p x : Char) : Bool :=
  x = p || Char.toLower x = p ||
  (p = 'i' && (x.toNat = 0x130 || x.toNat = 0x131)) ||
  (p = 's' && x.toNat = 0x17f) || (p = 'k' && x.toNat = 0x212a)

/-- Case-insensitive match of a literal at the front of the input:
character-wise `litEqCI`. -/
def matchLitCI : List Char → List Char → Bool
  | [], _ => true
  | _ :: _, [] => false
  | p :: ps, x :: xs => litEqCI p x && matchLitCI ps xs

/-- The full format regex of `validate_format`:
`^(feat|fix|...|remove)(\([a-z-]+\))?(!)?: .+` with `re.IGNORECASE`.  The
engine tries every alternative of the alternation (backtracking), hence
`List.any`; no type of the set is a prefix of another, so at most one
alternative can fit, but the `any` form needs no such argument. -/
def formatHeaderMatch (header : List Char) : Bool :=
  FORMAT_TYPES.any fun t =>
    matchLitCI t.toList header && matchAfterType (header.drop t.toList.length)

/-- The format pattern restricted to an ASCII spelling of the type token:
some alternative occurs at the front of the header up to ASCII letter case
(so the token really is one of the 14 type names), followed by a matching
tail.  This spec-side precondition of claims C1 and C6 implies
`formatHeaderMatch` but is strictly stronger: the regex also accepts exotic
Unicode spellings of a type (such as `teſt` for `test`, since `ſ` matches
the literal `s` under `re.IGNORECASE`), which then fail the later
`VALID_TYPES` membership check because `str.lower` does not map them back
to the type name. -/
def asciiHeaderMatch (header : List Char) : Bool :=
  FORMAT_TYPES.any fun t =>
    ((header.take t.toList.length).map Char.toLower == t.toList) &&
      matchAfterType (header.drop t.toList.length)

/-- First char of the description under `.+`: the capture of `(.+)` is the
greedy run of non-newline characters, required non-empty. -/
def descCapture : List Char → Option (List Char)
  | c1 :: c2 :: d =>
    if c1 = ':' ∧ c2 = ' ' then
      if (d.takeWhile (fun c => c ≠ '\n')).isEmpty then none
      else some (d.takeWhile (fun c => c ≠ '\n'))
    else none
  | _ => none

/-- The `(!)?: (.+)` tail of the extraction regex (`group(4)`, `group(5)`).
When the input starts with `!` the bang-less branch needs `:` at the `!` and
fails, so taking the bang is the only possibility. -/
def bangDesc : List Char → Option (Bool × List Char)
  | [] => none
  | c :: r2 =>
    if c = '!' then (descCapture r2).map (fun d => (true, d))
    else (descCapture (c :: r2)).map (fun d => (false, d))

/-- The extraction regex of `validate_type_and_scope`:
`^([a-z]+)(\(([a-z-]+)\))?(!)?: (.+)` with `re.IGNORECASE`, returning
`(type, scope, breaking, description)` as captured by groups 1, 3, 4, 5.
Greedy `[a-z]+` is `takeWhile classAZI` (the class under `IGNORECASE`, with
its four extra Unicode members): shortening the run would put a class
character in the next position, and no continuation (`(`, `!`, `:`) starts
with a class character, so the greedy run is the only candidate.  When the
remainder starts with `(` but the scope group cannot close, the scope-less
branch would need `!` or `:` at the `(` and fails, so the whole match
fails. -/
def extractHeader (header : List Char) :
    Option (List Char × Option (List Char) × Bool × List Char) :=
  if (header.takeWhile classAZI).isEmpty then none
  else if (header.dropWhile classAZI).head? = some '(' then
    match parenScope (header.dropWhile classAZI) with
    | some (w, r2) =>
      (bangDesc r2).map (fun bd => (header.takeWhile classAZI, some w, bd.1, bd.2))
    | none => none
  else
    (bangDesc (header.dropWhile classAZI)).map
      (fun bd => (header.takeWhile classAZI, none, bd.1, bd.2))

/-- Error `"Commit message cannot be empty"`. -/
def emptyMsg : String := "Commit message cannot be empty"

/-- Error f-string `"Header too long: {n} chars (max: 72)"`. -/
def tooLongMsg (n : Nat) : String :=
  "Header too long: " ++ toString n ++ " chars (max: 72)"

/-- Warning f-string `"Header long: {n} chars (recommended: ...50)"`; the
source file contains the literal byte sequence U+201A U+00E2 U+00A7 (a
mis-encoded less-or-equal sign), reproduced here. -/
def headerLongMsg (n : Nat) : String :=
  "Header long: " ++ toString n ++ " chars (recommended: ‚â§50)"

/-- The multi-line invalid-header-format error of `validate_format`. -/
def invalidFormatMsg (header : String) : String :=
  "Invalid header format: " ++ sQuote ++ header ++ sQuote ++
  "\nExpected: type(scope): description\nValid types: " ++
  String.intercalate ", " VALID_TYPES ++
  "\nValid scopes: " ++ String.intercalate ", " sortedScopes

/-- Error f-string `"Invalid type {t}. Valid types: ..."`. -/
def invalidTypeMsg (t : String) : String :=
  "Invalid type " ++ sQuote ++ t ++ sQuote ++ ". Valid types: " ++
  String.intercalate ", " VALID_TYPES

/-- Warning f-string `"Unknown scope {s}. Consider using: ..."`. -/
def unknownScopeMsg (s : String) : String :=
  "Unknown scope " ++ sQuote ++ s ++ sQuote ++ ". Consider using: " ++
  String.intercalate ", " sortedScopes

/-- Error appended when the description capture is empty. -/
def emptyDescMsg : String := "Description cannot be empty"

/-- Warning for a description starting with an uppercase letter. -/
def lowercaseMsg : String := "Description should start with lowercase letter"

/-- Warning for a description ending with a period. -/
def periodMsg : String := "Description should not end with a period"

/-- Warning for the breaking-change marker. -/
def breakingMsg : String :=
  "Breaking change detected - ensure CHANGELOG.md is updated"

/-- Error for a non-blank second line. -/
def blankLineMsg : String :=
  "There must be a blank line between header and body"

/-- Warning f-string `"Line {i} too long: {n} chars (recommended: ...72)"`
(same mis-encoded sign as `headerLongMsg`). -/
def lineTooLongMsg (i n : Nat) : String :=
  "Line " ++ toString i ++ " too long: " ++ toString n ++
  " chars (recommended: ‚â§72)"

/-- Warning f-string `"Description {d} is too vague. ..."`. -/
def vagueMsg (d : String) : String :=
  "Description " ++ sQuote ++ d ++ sQuote ++
  " is too vague. Be more specific about what was changed."

/-- Warning for a description shorter than 10 characters. -/
def shortDescMsg : String :=
  "Description should be at least 10 characters for clarity"

/-- Warning f-string `"Consider using imperative mood: {d} ... , etc."`; the
source contains the mis-encoded arrow U+201A U+00DC U+00ED, reproduced. -/
def imperativeMsg (d : String) : String :=
  "Consider using imperative mood: " ++ sQuote ++ d ++ sQuote ++
  " ‚Üí " ++ sQuote ++ "add ..." ++ sQuote ++ ", " ++ sQuote ++
  "fix ..." ++ sQuote ++ ", etc."

/-- The code-point ranges on which CPython `str.isupper()` is true for a
single character (category Lu plus the Other_Uppercase property), obtained
by exhaustive enumeration of `chr(i).isupper()` over all code points
(CPython 3.11, Unicode database 14.0.0): 1951 code points in 651 contiguous
ranges, each pair inclusive. -/
def UPPER_RANGES : List (Nat × Nat) := [
  (65, 90), (192, 214), (216, 222), (256, 256), (258, 258), (260, 260), (262, 262), (264, 264),
  (266, 266), (268, 268), (270, 270), (272, 272), (274, 274), (276, 276), (278, 278), (280, 280),
  (282, 282), (284, 284), (286, 286), (288, 288), (290, 290), (292, 292), (294, 294), (296, 296),
  (298, 298), (300, 300), (302, 302), (304, 304), (306, 306), (308, 308), (310, 310), (313, 313),
  (315, 315), (317, 317), (319, 319), (321, 321), (323, 323), (325, 325), (327, 327), (330, 330),
  (332, 332), (334, 334), (336, 336), (338, 338), (340, 340), (342, 342), (344, 344), (346, 346),
  (348, 348), (350, 350), (352, 352), (354, 354), (356, 356), (358, 358), (360, 360), (362, 362),
  (364, 364), (366, 366), (368, 368), (370, 370), (372, 372), (374, 374), (376, 377), (379, 379),
  (381, 381), (385, 386), (388, 388), (390, 391), (393, 395), (398, 401), (403, 404), (406, 408),
  (412, 413), (415, 416), (418, 418), (420, 420), (422, 423), (425, 425), (428, 428), (430, 431),
  (433, 435), (437, 437), (439, 440), (444, 444), (452, 452), (455, 455), (458, 458), (461, 461),
  (463, 463), (465, 465), (467, 467), (469, 469), (471, 471), (473, 473), (475, 475), (478, 478),
  (480, 480), (482, 482), (484, 484), (486, 486), (488, 488), (490, 490), (492, 492), (494, 494),
  (497, 497), (500, 500), (502, 504), (506, 506), (508, 508), (510, 510), (512, 512), (514, 514),
  (516, 516), (518, 518), (520, 520), (522, 522), (524, 524), (526, 526), (528, 528), (530, 530),
  (532, 532), (534, 534), (536, 536), (538, 538), (540, 540), (542, 542), (544, 544), (546, 546),
  (548, 548), (550, 550), (552, 552), (554, 554), (556, 556), (558, 558), (560, 560), (562, 562),
  (570, 571), (573, 574), (577, 577), (579, 582), (584, 584), (586, 586), (588, 588), (590, 590),
  (880, 880), (882, 882), (886, 886), (895, 895), (902, 902), (904, 906), (908, 908), (910, 911),
  (913, 929), (931, 939), (975, 975), (978, 980), (984, 984), (986, 986), (988, 988), (990, 990),
  (992, 992), (994, 994), (996, 996), (998, 998), (1000, 1000), (1002, 1002), (1004, 1004), (1006, 1006),
  (1012, 1012), (1015, 1015), (1017, 1018), (1021, 1071), (1120, 1120), (1122, 1122), (1124, 1124), (1126, 1126),
  (1128, 1128), (1130, 1130), (1132, 1132), (1134, 1134), (1136, 1136), (1138, 1138), (1140, 1140), (1142, 1142),
  (1144, 1144), (1146, 1146), (1148, 1148), (1150, 1150), (1152, 1152), (1162, 1162), (1164, 1164), (1166, 1166),
  (1168, 1168), (1170, 1170), (1172, 1172), (1174, 1174), (1176, 1176), (1178, 1178), (1180, 1180), (1182, 1182),
  (1184, 1184), (1186, 1186), (1188, 1188), (1190, 1190), (1192, 1192), (1194, 1194), (1196, 1196), (1198, 1198),
  (1200, 1200), (1202, 1202), (1204, 1204), (1206, 1206), (1208, 1208), (1210, 1210), (1212, 1212), (1214, 1214),
  (1216, 1217), (1219, 1219), (1221, 1221), (1223, 1223), (1225, 1225), (1227, 1227), (1229, 1229), (1232, 1232),
  (1234, 1234), (1236, 1236), (1238, 1238), (1240, 1240), (1242, 1242), (1244, 1244), (1246, 1246), (1248, 1248),
  (1250, 1250), (1252, 1252), (1254, 1254), (1256, 1256), (1258, 1258), (1260, 1260), (1262, 1262), (1264, 1264),
  (1266, 1266), (1268, 1268), (1270, 1270), (1272, 1272), (1274, 1274), (1276, 1276), (1278, 1278), (1280, 1280),
  (1282, 1282), (1284, 1284), (1286, 1286), (1288, 1288), (1290, 1290), (1292, 1292), (1294, 1294), (1296, 1296),
  (1298, 1298), (1300, 1300), (1302, 1302), (1304, 1304), (1306, 1306), (1308, 1308), (1310, 1310), (1312, 1312),
  (1314, 1314), (1316, 1316), (1318, 1318), (1320, 1320), (1322, 1322), (1324, 1324), (1326, 1326), (1329, 1366),
  (4256, 4293), (4295, 4295), (4301, 4301), (5024, 5109), (7312, 7354), (7357, 7359), (7680, 7680), (7682, 7682),
  (7684, 7684), (7686, 7686), (7688, 7688), (7690, 7690), (7692, 7692), (7694, 7694), (7696, 7696), (7698, 7698),
  (7700, 7700), (7702, 7702), (7704, 7704), (7706, 7706), (7708, 7708), (7710, 7710), (7712, 7712), (7714, 7714),
  (7716, 7716), (7718, 7718), (7720, 7720), (7722, 7722), (7724, 7724), (7726, 7726), (7728, 7728), (7730, 7730),
  (7732, 7732), (7734, 7734), (7736, 7736), (7738, 7738), (7740, 7740), (7742, 7742), (7744, 7744), (7746, 7746),
  (7748, 7748), (7750, 7750), (7752, 7752), (7754, 7754), (7756, 7756), (7758, 7758), (7760, 7760), (7762, 7762),
  (7764, 7764), (7766, 7766), (7768, 7768), (7770, 7770), (7772, 7772), (7774, 7774), (7776, 7776), (7778, 7778),
  (7780, 7780), (7782, 7782), (7784, 7784), (7786, 7786), (7788, 7788), (7790, 7790), (7792, 7792), (7794, 7794),
  (7796, 7796), (7798, 7798), (7800, 7800), (7802, 7802), (7804, 7804), (7806, 7806), (7808, 7808), (7810, 7810),
  (7812, 7812), (7814, 7814), (7816, 7816), (7818, 7818), (7820, 7820), (7822, 7822), (7824, 7824), (7826, 7826),
  (7828, 7828), (7838, 7838), (7840, 7840), (7842, 7842), (7844, 7844), (7846, 7846), (7848, 7848), (7850, 7850),
  (7852, 7852), (7854, 7854), (7856, 7856), (7858, 7858), (7860, 7860), (7862, 7862), (7864, 7864), (7866, 7866),
  (7868, 7868), (7870, 7870), (7872, 7872), (7874, 7874), (7876, 7876), (7878, 7878), (7880, 7880), (7882, 7882),
  (7884, 7884), (7886, 7886), (7888, 7888), (7890, 7890), (7892, 7892), (7894, 7894), (7896, 7896), (7898, 7898),
  (7900, 7900), (7902, 7902), (7904, 7904), (7906, 7906), (7908, 7908), (7910, 7910), (7912, 7912), (7914, 7914),
  (7916, 7916), (7918, 7918), (7920, 7920), (7922, 7922), (7924, 7924), (7926, 7926), (7928, 7928), (7930, 7930),
  (7932, 7932), (7934, 7934), (7944, 7951), (7960, 7965), (7976, 7983), (7992, 7999), (8008, 8013), (8025, 8025),
  (8027, 8027), (8029, 8029), (8031, 8031), (8040, 8047), (8120, 8123), (8136, 8139), (8152, 8155), (8168, 8172),
  (8184, 8187), (8450, 8450), (8455, 8455), (8459, 8461), (8464, 8466), (8469, 8469), (8473, 8477), (8484, 8484),
  (8486, 8486), (8488, 8488), (8490, 8493), (8496, 8499), (8510, 8511), (8517, 8517), (8544, 8559), (8579, 8579),
  (9398, 9423), (11264, 11311), (11360, 11360), (11362, 11364), (11367, 11367), (11369, 11369), (11371, 11371), (11373, 11376),
  (11378, 11378), (11381, 11381), (11390, 11392), (11394, 11394), (11396, 11396), (11398, 11398), (11400, 11400), (11402, 11402),
  (11404, 11404), (11406, 11406), (11408, 11408), (11410, 11410), (11412, 11412), (11414, 11414), (11416, 11416), (11418, 11418),
  (11420, 11420), (11422, 11422), (11424, 11424), (11426, 11426), (11428, 11428), (11430, 11430), (11432, 11432), (11434, 11434),
  (11436, 11436), (11438, 11438), (11440, 11440), (11442, 11442), (11444, 11444), (11446, 11446), (11448, 11448), (11450, 11450),
  (11452, 11452), (11454, 11454), (11456, 11456), (11458, 11458), (11460, 11460), (11462, 11462), (11464, 11464), (11466, 11466),
  (11468, 11468), (11470, 11470), (11472, 11472), (11474, 11474), (11476, 11476), (11478, 11478), (11480, 11480), (11482, 11482),
  (11484, 11484), (11486, 11486), (11488, 11488), (11490, 11490), (11499, 11499), (11501, 11501), (11506, 11506), (42560, 42560),
  (42562, 42562), (42564, 42564), (42566, 42566), (42568, 42568), (42570, 42570), (42572, 42572), (42574, 42574), (42576, 42576),
  (42578, 42578), (42580, 42580), (42582, 42582), (42584, 42584), (42586, 42586), (42588, 42588), (42590, 42590), (42592, 42592),
  (42594, 42594), (42596, 42596), (42598, 42598), (42600, 42600), (42602, 42602), (42604, 42604), (42624, 42624), (42626, 42626),
  (42628, 42628), (42630, 42630), (42632, 42632), (42634, 42634), (42636, 42636), (42638, 42638), (42640, 42640), (42642, 42642),
  (42644, 42644), (42646, 42646), (42648, 42648), (42650, 42650), (42786, 42786), (42788, 42788), (42790, 42790), (42792, 42792),
  (42794, 42794), (42796, 42796), (42798, 42798), (42802, 42802), (42804, 42804), (42806, 42806), (42808, 42808), (42810, 42810),
  (42812, 42812), (42814, 42814), (42816, 42816), (42818, 42818), (42820, 42820), (42822, 42822), (42824, 42824), (42826, 42826),
  (42828, 42828), (42830, 42830), (42832, 42832), (42834, 42834), (42836, 42836), (42838, 42838), (42840, 42840), (42842, 42842),
  (42844, 42844), (42846, 42846), (42848, 42848), (42850, 42850), (42852, 42852), (42854, 42854), (42856, 42856), (42858, 42858),
  (42860, 42860), (42862, 42862), (42873, 42873), (42875, 42875), (42877, 42878), (42880, 42880), (42882, 42882), (42884, 42884),
  (42886, 42886), (42891, 42891), (42893, 42893), (42896, 42896), (42898, 42898), (42902, 42902), (42904, 42904), (42906, 42906),
  (42908, 42908), (42910, 42910), (42912, 42912), (42914, 42914), (42916, 42916), (42918, 42918), (42920, 42920), (42922, 42926),
  (42928, 42932), (42934, 42934), (42936, 42936), (42938, 42938), (42940, 42940), (42942, 42942), (42944, 42944), (42946, 42946),
  (42948, 42951), (42953, 42953), (42960, 42960), (42966, 42966), (42968, 42968), (42997, 42997), (65313, 65338), (66560, 66599),
  (66736, 66771), (66928, 66938), (66940, 66954), (66956, 66962), (66964, 66965), (68736, 68786), (71840, 71871), (93760, 93791),
  (119808, 119833), (119860, 119885), (119912, 119937), (119964, 119964), (119966, 119967), (119970, 119970), (119973, 119974), (119977, 119980),
  (119982, 119989), (120016, 120041), (120068, 120069), (120071, 120074), (120077, 120084), (120086, 120092), (120120, 120121), (120123, 120126),
  (120128, 120132), (120134, 120134), (120138, 120144), (120172, 120197), (120224, 120249), (120276, 120301), (120328, 120353), (120380, 120405),
  (120432, 120457), (120488, 120512), (120546, 120570), (120604, 120628), (120662, 120686), (120720, 120744), (120778, 120778), (125184, 125217),
  (127280, 127305), (127312, 127337), (127344, 127369)
]

/-- Python `str.isupper()` on a single character: membership in one of the
ranges above. -/
def pyIsUpper (c : Char) : Bool :=
  UPPER_RANGES.any fun p => decide (p.1 ≤ c.toNat) && decide (c.toNat ≤ p.2)

/-- Python `description[0].isupper()` behind the non-empty guard of the
script (the empty case is unreachable there; the crash-aware variant below
models the raw index). -/
def pyIsUpperHead : List Char → Bool
  | [] => false
  | c :: _ => pyIsUpper c

/-- The first line of the stripped message, `message.strip().split('\n')[0]`
(`split` never returns an empty list, so the default is unreachable). -/
def headerOf (m : String) : List Char :=
  (splitOnNl (pyStripL m.toList)).headD []

/-- `CommitMessageValidator.validate_format`: emptiness of the line list
(dead code, `split` is never empty), the 72/50 length checks, then the
format regex.  Returns `(ok, errors appended, warnings appended)`. -/
def validate_format (message : String) : Bool × List String × List String :=
  let lines := splitOnNl (pyStripL message.toList)
  match lines with
  | [] => (false, [emptyMsg], [])
  | header :: _ =>
    if header.length > 72 then (false, [tooLongMsg header.length], [])
    else
      let warns := if header.length > 50 then [headerLongMsg header.length] else []
      if formatHeaderMatch header then (true, [], warns)
      else (false, [invalidFormatMsg (String.mk header)], warns)

/-- `CommitMessageValidator.validate_type_and_scope`: re-extract the header
fields and validate them.  Warnings appended in source order: unknown scope,
uppercase start, trailing period, breaking marker.  Note the unknown-scope
warning survives the (unreachable) empty-description error return, as in the
script. -/
def validate_type_and_scope (message : String) : Bool × List String × List String :=
  match extractHeader (headerOf message) with
  | none => (false, [], [])
  | some (ty, scope, breaking, description) =>
    let commit_type := String.mk (pyLower ty)
    if commit_type ∉ VALID_TYPES then
      (false, [invalidTypeMsg commit_type], [])
    else
      let w1 :=
        match scope with
        | some sc =>
          if String.mk sc ∉ VALID_SCOPES then [unknownScopeMsg (String.mk sc)] else []
        | none => []
      if description.isEmpty then (false, [emptyDescMsg], w1)
      else
        let w2 := if pyIsUpperHead description then [lowercaseMsg] else []
        let w3 := if description.getLast? = some '.' then [periodMsg] else []
        let w4 := if breaking then [breakingMsg] else []
        (true, [], w1 ++ w2 ++ w3 ++ w4)

/-- Warnings of the body-line-length loop: `for i, line in
enumerate(lines[2:], start=3)`. -/
def bodyLineWarnings : Nat → List (List Char) → List String
  | _, [] => []
  | i, l :: ls =>
    (if l.length > 72 then [lineTooLongMsg i l.length] else []) ++
    bodyLineWarnings (i + 1) ls

/-- `CommitMessageValidator.validate_body_and_footer`: with fewer than two
lines the check passes; a non-blank second line is a fatal error; body lines
from the third on produce length warnings.  The footer-pattern loop of the
script only `break`s and appends nothing, so it has no effect and is not
modelled. -/
def validate_body_and_footer (message : String) : Bool × List String × List String :=
  if (splitOnNl (pyStripL message.toList)).length < 2 then (true, [], [])
  else if 1 < (splitOnNl (pyStripL message.toList)).length ∧
      ¬ (pyStripL ((splitOnNl (pyStripL message.toList)).getD 1 [])).isEmpty then
    (false, [blankLineMsg], [])
  else (true, [], bodyLineWarnings 3 ((splitOnNl (pyStripL message.toList)).drop 2))

/-- `CommitMessageValidator.validate_content_quality`: find `': '` in the
header (`find` misses entirely only on non-format headers), take the trimmed
text after it, and emit the vagueness / length / imperative-mood warnings. -/
def validate_content_quality (message : String) : Bool × List String × List String :=
  match findColonSpace (headerOf message) with
  | none => (false, [], [])
  | some colon_pos =>
    let description := pyStripL ((headerOf message).drop (colon_pos + 2))
    let w1 :=
      if VAGUE_WORDS.any (fun w => pyStripL (pyLower description) == w.toList) then
        [vagueMsg (String.mk description)]
      else []
    let w2 := if description.length < 10 then [shortDescMsg] else []
    let first_word :=
      match pyWords description with
      | [] => ""
      | w :: _ => String.mk (pyLower w)
    let w3 :=
      if first_word ∈ IMPERATIVE_INDICATORS then [] else [imperativeMsg (String.mk description)]
    (true, [], w1 ++ w2 ++ w3)

/-- `CommitMessageValidator.validate_commit_message`: the emptiness
short-circuit, then the four checks, the last three skipped (flags forced to
`False`, nothing appended) when the format check fails.  Errors and warnings
are the concatenations of the per-check buffers in execution order. -/
def validate_commit_message (message : String) : Bool × List String × List String :=
  if message.toList = [] ∨ pyStripL message.toList = [] then
    (false, [emptyMsg], [])
  else
    let f := validate_format message
    let t := if f.1 then validate_type_and_scope message else (false, [], [])
    let b := if f.1 then validate_body_and_footer message else (false, [], [])
    let q := if f.1 then validate_content_quality message else (false, [], [])
    (f.1 && t.1 && b.1 && q.1,
     f.2.1 ++ t.2.1 ++ b.2.1 ++ q.2.1,
     f.2.2 ++ t.2.2 ++ b.2.2 ++ q.2.2)

/-!
Crash-aware variants.  Python raises `IndexError` on an out-of-range index;
the variants below model every index the script performs without a syntactic
guard as an `Option` access, `none` standing for a raised exception.  The
guarded indexes (`lines[0]` in `validate_format` behind `if not lines`,
`description.split()[0]` behind its conditional expression, `lines[1]` behind
`len(lines) > 1`) keep their guards.  `validate_format` has no unguarded
index, so it needs no variant.
-/

/-- Crash-aware `validate_type_and_scope`: `message.strip().split('\n')[0]`
is an unguarded index, and `description[0]` is indexed behind only the
emptiness check of the script. -/
def validate_type_and_scope_opt (message : String) :
    Option (Bool × List String × List String) :=
  if (splitOnNl (pyStripL message.toList)).head? = none then none
  else
    match extractHeader (headerOf message) with
    | none => some (false, [], [])
    | some (ty, scope, breaking, description) =>
      let commit_type := String.mk (pyLower ty)
      if commit_type ∉ VALID_TYPES then
        some (false, [invalidTypeMsg commit_type], [])
      else
        let w1 :=
          match scope with
          | some sc =>
            if String.mk sc ∉ VALID_SCOPES then [unknownScopeMsg (String.mk sc)] else []
          | none => []
        if description.isEmpty then some (false, [emptyDescMsg], w1)
        else
          match description.head? with
          | none => none
          | some c0 =>
            let w2 := if pyIsUpper c0 then [lowercaseMsg] else []
            let w3 := if description.getLast? = some '.' then [periodMsg] else []
            let w4 := if breaking then [breakingMsg] else []
            some (true, [], w1 ++ w2 ++ w3 ++ w4)

/-- Crash-aware `validate_body_and_footer`: `lines[1]` sits behind the
short-circuit guard `len(lines) > 1`, kept here. -/
def validate_body_and_footer_opt (message : String) :
    Option (Bool × List String × List String) :=
  if (splitOnNl (pyStripL message.toList)).length < 2 then some (true, [], [])
  else if 1 < (splitOnNl (pyStripL message.toList)).length then
    if (splitOnNl (pyStripL message.toList)).get? 1 = none then none
    else if ¬ (pyStripL ((splitOnNl (pyStripL message.toList)).getD 1 [])).isEmpty then
      some (false, [blankLineMsg], [])
    else some (true, [], bodyLineWarnings 3 ((splitOnNl (pyStripL message.toList)).drop 2))
  else some (true, [], bodyLineWarnings 3 ((splitOnNl (pyStripL message.toList)).drop 2))

/-- Crash-aware `validate_content_quality`: `message.strip().split('\n')[0]`
is an unguarded index; the first-word access is guarded by the conditional
expression of the script and keeps its guard. -/
def validate_content_quality_opt (message : String) :
    Option (Bool × List String × List String) :=
  if (splitOnNl (pyStripL message.toList)).head? = none then none
  else
    match findColonSpace (headerOf message) with
    | none => some (false, [], [])
    | some colon_pos =>
      let description := pyStripL ((headerOf message).drop (colon_pos + 2))
      let w1 :=
        if VAGUE_WORDS.any (fun w => pyStripL (pyLower description) == w.toList) then
          [vagueMsg (String.mk description)]
        else []
      let w2 := if description.length < 10 then [shortDescMsg] else []
      let first_word :=
        match pyWords description with
        | [] => ""
        | w :: _ => String.mk (pyLower w)
      let w3 :=
        if first_word ∈ IMPERATIVE_INDICATORS then [] else [imperativeMsg (String.mk description)]
      some (true, [], w1 ++ w2 ++ w3)

/-- Crash-aware `validate_commit_message`, propagating a `none` (exception)
of any sub-check. -/
def validate_commit_message_opt (message : String) :
    Option (Bool × List String × List String) :=
  if message.toList = [] ∨ pyStripL message.toList = [] then
    some (false, [emptyMsg], [])
  else
    let f := validate_format message
    match (if f.1 then validate_type_and_scope_opt message else some (false, [], [])) with
    | none => none
    | some t =>
      match (if f.1 then validate_body_and_footer_opt message else some (false, [], [])) with
      | none => none
      | some b =>
        match (if f.1 then validate_content_quality_opt message else some (false, [], [])) with
        | none => none
        | some q =>
          some (f.1 && t.1 && b.1 && q.1,
                f.2.1 ++ t.2.1 ++ b.2.1 ++ q.2.1,
                f.2.2 ++ t.2.2 ++ b.2.2 ++ q.2.2)

/-- Whether `n` occurs at the front of `l`. -/
def listStarts : List Char → List Char → Bool
  | [], _ => true
  | _ :: _, [] => false
  | a :: n, b :: l => a = b && listStarts n l

/-- Whether `n` occurs contiguously anywhere in `l`. -/
def listHasSub (n : List Char) : List Char → Bool
  | [] => listStarts n []
  | c :: t => listStarts n (c :: t) || listHasSub n t

/-- Substring test used to state the "mentions ..." clauses of the spec. -/
def mentions (needle hay : String) : Bool :=
  listHasSub needle.toList hay.toList

/-!
Helper lemmas.
-/

/-- Splitting on newlines never yields an empty list of lines (as in Python,
`''.split('\n') == ['']`). -/
theorem splitOnNl_ne_nil : ∀ l : List Char, splitOnNl l ≠ []
  | [] => by simp [splitOnNl]
  | c :: t => by
    simp only [splitOnNl]
    split
    · simp
    · split <;> simp

/-- The header is the first line. -/
theorem headerOf_cons {m : String} {h : List Char} {t : List (List Char)}
    (hl : splitOnNl (pyStripL m.toList) = h :: t) : headerOf m = h := by
  unfold headerOf
  rw [hl]
  rfl

/-- A whitespace-only message has an empty header. -/
theorem headerOf_of_strip_nil {m : String} (he : pyStripL m.toList = []) :
    headerOf m = [] := by
  unfold headerOf
  rw [he]
  rfl

/-- An empty message strips to nothing. -/
theorem strip_nil_of_toList_nil {m : String} (he : m.toList = []) :
    pyStripL m.toList = [] := by
  rw [he]
  rfl

/-- String concatenation on the character level. -/
theorem toList_append (s t : String) : (s ++ t).toList = s.toList ++ t.toList := rfl

/-- A match at the front survives extending the text to the right. -/
theorem listStarts_append {n l : List Char} (m : List Char)
    (h : listStarts n l = true) : listStarts n (l ++ m) = true := by
  induction n generalizing l with
  | nil => rfl
  | cons a n ih =>
    cases l with
    | nil => simp [listStarts] at h
    | cons b l =>
      simp only [listStarts, Bool.and_eq_true] at h ⊢
      exact ⟨h.1, ih h.2⟩

/-- An occurrence inside the left part is an occurrence in the whole. -/
theorem listHasSub_append_left {n a : List Char} (b : List Char)
    (h : listHasSub n a = true) : listHasSub n (a ++ b) = true := by
  induction a with
  | nil =>
    simp only [listHasSub] at h
    cases n with
    | nil => cases b <;> simp [listHasSub, listStarts]
    | cons x xs => simp [listStarts] at h
  | cons c t ih =>
    simp only [listHasSub, Bool.or_eq_true] at h ⊢
    rcases h with h | h
    · exact Or.inl (listStarts_append b h)
    · exact Or.inr (ih h)

/-- The substring relation survives appending on the right. -/
theorem mentions_append_left {needle a : String} (b : String)
    (h : mentions needle a = true) : mentions needle (a ++ b) = true := by
  unfold mentions at h ⊢
  rw [toList_append]
  exact listHasSub_append_left _ h

/-- The too-long error mentions "too long". -/
theorem tooLongMsg_mentions (n : Nat) : mentions "too long" (tooLongMsg n) = true := by
  unfold tooLongMsg
  exact mentions_append_left _ (mentions_append_left _ (by decide))

/-- The header-long warning mentions "long". -/
theorem headerLongMsg_mentions (n : Nat) : mentions "long" (headerLongMsg n) = true := by
  unfold headerLongMsg
  exact mentions_append_left _ (mentions_append_left _ (by decide))

/-- C4: for every message that is empty or consists only of whitespace,
`validate_commit_message` returns immediately with `is_valid = false`, the
single error "Commit message cannot be empty", and no warnings. -/
theorem c4_empty_message (m : String) (h : pyStripL m.toList = []) :
    validate_commit_message m = (false, [emptyMsg], []) := by
  unfold validate_commit_message
  rw [if_pos (Or.inr h)]

/-- Witness for C4 at two whitespace-only inputs, one of them made of
non-ASCII Python whitespace (NBSP, EM SPACE, FILE SEPARATOR). -/
theorem c4_empty_message_witness :
    (pyStripL ("  \n ".toList) = [] ∧
      validate_commit_message "  \n " = (false, [emptyMsg], [])) ∧
    (pyStripL ("\u00a0\u2003\u001c".toList) = [] ∧
      validate_commit_message "\u00a0\u2003\u001c" = (false, [emptyMsg], [])) :=
  ⟨⟨by decide, c4_empty_message "  \n " (by decide)⟩,
   ⟨by decide, c4_empty_message "\u00a0\u2003\u001c" (by decide)⟩⟩

/-- Whenever the first line is over 72 characters the format check fails with
the too-long error alone. -/
theorem validate_format_too_long {m : String} (h : 72 < (headerOf m).length) :
    validate_format m = (false, [tooLongMsg (headerOf m).length], []) := by
  cases hl : splitOnNl (pyStripL m.toList) with
  | nil => exact absurd hl (splitOnNl_ne_nil _)
  | cons hd tl =>
    have hh : headerOf m = hd := headerOf_cons hl
    rw [hh] at h ⊢
    simp only [validate_format, hl]
    rw [if_pos h]

/-- C3: a header longer than 72 characters makes the whole validation fail
with exactly the single too-long error and no warnings (the later stages are
skipped), and that error mentions "too long". -/
theorem c3_header_too_long (m : String) (h : 72 < (headerOf m).length) :
    validate_commit_message m = (false, [tooLongMsg (headerOf m).length], []) ∧
      mentions "too long" (tooLongMsg (headerOf m).length) = true := by
  refine ⟨?_, tooLongMsg_mentions _⟩
  have hne : pyStripL m.toList ≠ [] := by
    intro he
    rw [headerOf_of_strip_nil he] at h
    simp at h
  have hm : ¬ (m.toList = [] ∨ pyStripL m.toList = []) := by
    rintro (he | he)
    · exact hne (strip_nil_of_toList_nil he)
    · exact hne he
  unfold validate_commit_message
  rw [if_neg hm]
  simp [validate_format_too_long h]

/-- Witness for C3 at an 81-character header. -/
theorem c3_header_too_long_witness :
    72 < (headerOf (String.mk ('f' :: 'e' :: 'a' :: 't' :: '(' :: 'c' :: 'l' :: 'i' :: ')' :: ':' :: ' ' :: List.replicate 70 'a'))).length ∧
      (validate_commit_message (String.mk ('f' :: 'e' :: 'a' :: 't' :: '(' :: 'c' :: 'l' :: 'i' :: ')' :: ':' :: ' ' :: List.replicate 70 'a'))).1 = false :=
  ⟨by decide, by
    rw [(c3_header_too_long _ (by decide)).1]⟩

/-- Unsigned 32-bit comparison through the natural values. -/
theorem uint32_le_iff_toNat {a b : UInt32} : a ≤ b ↔ a.toNat ≤ b.toNat := by
  rw [UInt32.le_def, BitVec.le_def]
  rfl

/-- A character whose ASCII lowercasing is a lowercase letter is a letter. -/
theorem isAlpha_of_toLower_isLower {c : Char} (h : (Char.toLower c).isLower = true) :
    c.isAlpha = true := by
  have h' : (if c.toNat ≥ 65 ∧ c.toNat ≤ 90 then Char.ofNat (c.toNat + 32) else c).isLower
      = true := h
  by_cases hc : c.toNat ≥ 65 ∧ c.toNat ≤ 90
  · have h1 : (65 : UInt32) ≤ c.val := by
      rw [uint32_le_iff_toNat]
      exact hc.1
    have h2 : c.val ≤ (90 : UInt32) := by
      rw [uint32_le_iff_toNat]
      exact hc.2
    simp [Char.isAlpha, Char.isUpper, h1, h2]
  · rw [if_neg hc] at h'
    simp [Char.isAlpha, h']

/-- A character outside `A`-`Z` is fixed by ASCII lowercasing. -/
theorem toLower_eq_self {c : Char} (h : ¬ (c.toNat ≥ 65 ∧ c.toNat ≤ 90)) :
    Char.toLower c = c := by
  have h' : Char.toLower c =
      (if c.toNat ≥ 65 ∧ c.toNat ≤ 90 then Char.ofNat (c.toNat + 32) else c) := rfl
  rw [h', if_neg h]

/-- Numeric bounds of an ASCII lowercase letter. -/
theorem isLower_toNat {c : Char} (h : c.isLower = true) :
    97 ≤ c.toNat ∧ c.toNat ≤ 122 := by
  have h' : (decide (97 ≤ c.val) && decide (c.val ≤ 122)) = true := h
  rw [Bool.and_eq_true, decide_eq_true_eq, decide_eq_true_eq] at h'
  exact ⟨uint32_le_iff_toNat.mp h'.1, uint32_le_iff_toNat.mp h'.2⟩

/-- An input equal to the pattern character up to ASCII case matches it. -/
theorem litEqCI_of_toLower {p x : Char} (h : Char.toLower x = p) :
    litEqCI p x = true := by
  rw [litEqCI]
  simp [h]

/-- An input matching a lowercase pattern letter lies in the `[a-z]`
IGNORECASE class. -/
theorem litEqCI_lower_class {p x : Char} (hp : p.isLower = true)
    (h : litEqCI p x = true) : classAZI x = true := by
  rw [litEqCI] at h
  simp only [Bool.or_eq_true, Bool.and_eq_true, decide_eq_true_eq] at h
  rcases h with (((hx | hx) | ⟨-, hx | hx⟩) | ⟨-, hx⟩) | ⟨-, hx⟩
  · subst hx
    have ha : x.isAlpha = true := by
      simp [Char.isAlpha, hp]
    simp [classAZI, ha]
  · have ha : x.isAlpha = true := by
      apply isAlpha_of_toLower_isLower
      rw [hx]
      exact hp
    simp [classAZI, ha]
  · simp [classAZI, hx]
  · simp [classAZI, hx]
  · simp [classAZI, hx]
  · simp [classAZI, hx]

/-- Between two ASCII lowercase letters, the IGNORECASE literal match is
plain equality. -/
theorem litEqCI_lower_lower {p x : Char}
    (hx : x.isLower = true) (h : litEqCI p x = true) : x = p := by
  rw [litEqCI] at h
  simp only [Bool.or_eq_true, Bool.and_eq_true, decide_eq_true_eq] at h
  obtain ⟨hx1, hx2⟩ := isLower_toNat hx
  rcases h with (((he | he) | ⟨-, he | he⟩) | ⟨-, he⟩) | ⟨-, he⟩
  · exact he
  · rw [toLower_eq_self (by omega)] at he
    exact he
  · omega
  · omega
  · omega
  · omega

/-- A literal match needs at least the literal's length of input. -/
theorem matchLitCI_le : ∀ lit l : List Char, matchLitCI lit l = true →
    lit.length ≤ l.length
  | [], _, _ => Nat.zero_le _
  | p :: ps, [], h => by simp [matchLitCI] at h
  | p :: ps, x :: xs, h => by
    rw [matchLitCI, Bool.and_eq_true] at h
    exact Nat.succ_le_succ (matchLitCI_le ps xs h.2)

/-- The input consumed by a lowercase literal lies in the `[a-z]`
IGNORECASE class. -/
theorem matchLitCI_take_class : ∀ lit l : List Char,
    (∀ p ∈ lit, p.isLower = true) → matchLitCI lit l = true →
    ∀ x ∈ l.take lit.length, classAZI x = true
  | [], l, _, _ => by simp
  | p :: ps, [], _, h => by simp [matchLitCI] at h
  | p :: ps, x :: xs, hlow, h => by
    rw [matchLitCI, Bool.and_eq_true] at h
    intro y hy
    rw [List.length_cons, List.take_succ_cons, List.mem_cons] at hy
    rcases hy with hy | hy
    · subst hy
      exact litEqCI_lower_class (hlow p (List.mem_cons_self p ps)) h.1
    · exact matchLitCI_take_class ps xs
        (fun q hq => hlow q (List.mem_cons_of_mem p hq)) h.2 y hy

/-- When both the literal and the consumed input are ASCII lowercase, the
consumed input is the literal itself. -/
theorem matchLitCI_take_eq : ∀ lit l : List Char,
    (∀ p ∈ lit, p.isLower = true) →
    (∀ x ∈ l.take lit.length, x.isLower = true) →
    matchLitCI lit l = true → l.take lit.length = lit
  | [], l, _, _, _ => by simp
  | p :: ps, [], _, _, h => by simp [matchLitCI] at h
  | p :: ps, x :: xs, hlow, hxlow, h => by
    rw [matchLitCI, Bool.and_eq_true] at h
    rw [List.length_cons, List.take_succ_cons]
    have hq : ∀ y ∈ xs.take ps.length, y.isLower = true := by
      intro y hy
      apply hxlow
      rw [List.length_cons, List.take_succ_cons]
      exact List.mem_cons_of_mem x hy
    have hxp : x = p := by
      apply litEqCI_lower_lower ?_ h.1
      apply hxlow
      rw [List.length_cons, List.take_succ_cons]
      exact List.mem_cons_self x _
    rw [hxp, matchLitCI_take_eq ps xs
      (fun q hqq => hlow q (List.mem_cons_of_mem p hqq)) hq h.2]

/-- Position-wise content of a literal match. -/
theorem matchLitCI_class_at : ∀ lit l : List Char, matchLitCI lit l = true →
    ∀ (j : Nat) (p : Char), lit[j]? = some p →
      ∃ x, l[j]? = some x ∧ litEqCI p x = true
  | [], _, _, j, p, hj => by simp at hj
  | q :: ps, [], h, _, _, _ => by simp [matchLitCI] at h
  | q :: ps, x :: xs, h, j, p, hj => by
    rw [matchLitCI, Bool.and_eq_true] at h
    cases j with
    | zero =>
      rw [List.getElem?_cons_zero] at hj
      injection hj with hj
      subst hj
      refine ⟨x, ?_, h.1⟩
      rw [List.getElem?_cons_zero]
    | succ n =>
      rw [List.getElem?_cons_succ] at hj
      obtain ⟨y, hy, hly⟩ := matchLitCI_class_at ps xs h.2 n p hj
      refine ⟨y, ?_, hly⟩
      rw [List.getElem?_cons_succ]
      exact hy

/-- An ASCII case-insensitive match of the literal is in particular an
IGNORECASE match. -/
theorem matchLitCI_of_ascii : ∀ lit l : List Char,
    ((l.take lit.length).map Char.toLower == lit) = true →
    matchLitCI lit l = true
  | [], _, _ => rfl
  | p :: ps, [], h => by simp at h
  | p :: ps, x :: xs, h => by
    rw [List.length_cons, List.take_succ_cons, List.map_cons, beq_iff_eq,
      List.cons_eq_cons] at h
    rw [matchLitCI, Bool.and_eq_true]
    exact ⟨litEqCI_of_toLower h.1, matchLitCI_of_ascii ps xs (beq_iff_eq.mpr h.2)⟩

/-- The ASCII-spelling precondition implies the format regex match. -/
theorem ascii_implies_format {header : List Char}
    (h : asciiHeaderMatch header = true) : formatHeaderMatch header = true := by
  rw [asciiHeaderMatch, List.any_eq_true] at h
  obtain ⟨t, ht, hm⟩ := h
  rw [Bool.and_eq_true] at hm
  rw [formatHeaderMatch, List.any_eq_true]
  refine ⟨t, ht, ?_⟩
  rw [Bool.and_eq_true]
  exact ⟨matchLitCI_of_ascii _ _ hm.1, hm.2⟩

/-- On ASCII letters the Python lowercasing is the one-character ASCII
fold. -/
theorem pyLowerChar_alpha {c : Char} (h : c.isAlpha = true) :
    pyLowerChar c = [Char.toLower c] := by
  rw [Char.isAlpha, Bool.or_eq_true] at h
  rcases h with h | h
  · have h' : (decide (65 ≤ c.val) && decide (c.val ≤ 90)) = true := h
    rw [Bool.and_eq_true, decide_eq_true_eq, decide_eq_true_eq] at h'
    have h1 : 65 ≤ c.toNat := uint32_le_iff_toNat.mp h'.1
    have h2 : c.toNat ≤ 90 := uint32_le_iff_toNat.mp h'.2
    rw [pyLowerChar, if_pos ⟨h1, h2⟩]
  · obtain ⟨h1, h2⟩ := isLower_toNat h
    rw [pyLowerChar, if_neg (by omega), if_neg (by omega), if_neg (by omega),
      toLower_eq_self (by omega)]

/-- On all-ASCII-letter input, Python lowercasing is the character-wise
ASCII fold. -/
theorem pyLower_map_alpha : ∀ l : List Char, (∀ c ∈ l, c.isAlpha = true) →
    pyLower l = l.map Char.toLower
  | [], _ => rfl
  | c :: t, h => by
    rw [pyLower, pyLowerChar_alpha (h c (List.mem_cons_self c t)), List.map_cons,
      pyLower_map_alpha t (fun x hx => h x (List.mem_cons_of_mem c hx))]
    rfl

/-- Rebuilding a string from its character list. -/
theorem mk_toList (s : String) : String.mk s.toList = s := rfl

/-- Facts about the type alternation, by computation: every alternative is
fixed by Python lowercasing, non-empty, made of ASCII lowercase letters, and
a key of `VALID_TYPES`. -/
theorem format_types_facts :
    ∀ t ∈ FORMAT_TYPES,
      pyLower t.toList = t.toList ∧ t.toList ≠ [] ∧
      (∀ c ∈ t.toList, c.isLower = true) ∧ t ∈ VALID_TYPES := by
  decide

/-- A successful separator-description match starts with a colon. -/
theorem matchSepDesc_head {c : Char} {r : List Char}
    (h : matchSepDesc (c :: r) = true) : c = ':' := by
  cases r with
  | nil => simp [matchSepDesc] at h
  | cons c2 t2 =>
    cases t2 with
    | nil => simp [matchSepDesc] at h
    | cons c3 t3 =>
      simp only [matchSepDesc, Bool.and_eq_true, decide_eq_true_eq] at h
      exact h.1.1

/-- A successful bang-separator match starts with a bang or a colon. -/
theorem matchBangSep_head {c : Char} {r : List Char}
    (h : matchBangSep (c :: r) = true) : c = '!' ∨ c = ':' := by
  simp only [matchBangSep, Bool.or_eq_true, Bool.and_eq_true, decide_eq_true_eq] at h
  rcases h with ⟨h1, _⟩ | h
  · exact Or.inl h1
  · exact Or.inr (matchSepDesc_head h)

/-- The scope group fails on anything not starting with a parenthesis. -/
theorem parenScope_not_paren {c : Char} {t : List Char} (h : c ≠ '(') :
    parenScope (c :: t) = none := by
  simp only [parenScope]
  rw [if_neg h]

/-- A successful tail match starts with a parenthesis, bang or colon. -/
theorem matchAfterType_shape {r : List Char} (h : matchAfterType r = true) :
    ∃ c t, r = c :: t ∧ (c = '(' ∨ c = '!' ∨ c = ':') := by
  cases r with
  | nil => simp [matchAfterType, parenScope, matchBangSep, matchSepDesc] at h
  | cons c t =>
    refine ⟨c, t, rfl, ?_⟩
    by_cases h1 : c = '('
    · exact Or.inl h1
    · rw [matchAfterType, parenScope_not_paren h1] at h
      simp only [Bool.or_eq_true] at h
      rcases h with h | h
      · simp at h
      · rcases matchBangSep_head h with h | h
        · exact Or.inr (Or.inl h)
        · exact Or.inr (Or.inr h)

/-- A successful separator-description match yields a non-empty capture. -/
theorem descCapture_of_matchSepDesc {r : List Char} (h : matchSepDesc r = true) :
    ∃ d, descCapture r = some d ∧ d ≠ [] := by
  cases r with
  | nil => simp [matchSepDesc] at h
  | cons c1 t1 =>
    cases t1 with
    | nil => simp [matchSepDesc] at h
    | cons c2 t2 =>
      cases t2 with
      | nil => simp [matchSepDesc] at h
      | cons c3 t3 =>
        simp only [matchSepDesc, Bool.and_eq_true, decide_eq_true_eq] at h
        obtain ⟨⟨h1, h2⟩, h3⟩ := h
        subst h1
        subst h2
        refine ⟨(c3 :: t3).takeWhile (fun c => c ≠ '\n'), ?_, ?_⟩
        · simp [descCapture, List.takeWhile_cons, h3]
        · simp [List.takeWhile_cons, h3]

/-- A successful bang-separator match yields a breaking flag and a non-empty
description capture. -/
theorem bangDesc_of_matchBangSep {r : List Char} (h : matchBangSep r = true) :
    ∃ bk d, bangDesc r = some (bk, d) ∧ d ≠ [] := by
  cases r with
  | nil => simp [matchBangSep] at h
  | cons c r2 =>
    simp only [matchBangSep, Bool.or_eq_true, Bool.and_eq_true, decide_eq_true_eq] at h
    by_cases hc : c = '!'
    · subst hc
      rcases h with ⟨_, hsep⟩ | hsep
      · obtain ⟨d, hd, hne⟩ := descCapture_of_matchSepDesc hsep
        refine ⟨true, d, ?_, hne⟩
        simp only [bangDesc]
        simp [hd]
      · exact absurd (matchSepDesc_head hsep) (by decide)
    · rcases h with ⟨h1, _⟩ | hsep
      · exact absurd h1 hc
      · obtain ⟨d, hd, hne⟩ := descCapture_of_matchSepDesc hsep
        refine ⟨false, d, ?_, hne⟩
        simp only [bangDesc]
        rw [if_neg hc, hd]
        rfl

/-- A bang-separator match never starts with a parenthesis. -/
theorem matchBangSep_paren {r : List Char} : matchBangSep ('(' :: r) = false := by
  by_contra h
  rw [Bool.not_eq_false] at h
  rcases matchBangSep_head h with h | h <;> simp at h

/-- Core reachability fact: a header accepted by the format regex is also
accepted by the extraction regex, with the greedy class run as type token
and a non-empty description capture.  (The lowered type token need not be a
valid type: exotic IGNORECASE spellings such as `teſt` pass the format regex
yet lower to a string outside `VALID_TYPES`.) -/
theorem extract_of_formatMatch {header : List Char} (h : formatHeaderMatch header = true) :
    ∃ sc bk d,
      extractHeader header = some (header.takeWhile classAZI, sc, bk, d) ∧
      d ≠ [] := by
  rw [formatHeaderMatch, List.any_eq_true] at h
  obtain ⟨t, ht, hm⟩ := h
  rw [Bool.and_eq_true] at hm
  obtain ⟨hlit, hafter⟩ := hm
  obtain ⟨-, hne, hlower, -⟩ := format_types_facts t ht
  have hle : t.toList.length ≤ header.length := matchLitCI_le _ _ hlit
  have hsplit : header.take t.toList.length ++ header.drop t.toList.length = header :=
    List.take_append_drop _ header
  have hAclass : ∀ c ∈ header.take t.toList.length, classAZI c = true :=
    matchLitCI_take_class _ _ hlower hlit
  obtain ⟨c0, r0, hr, hc0⟩ := matchAfterType_shape hafter
  have hc0na : classAZI c0 = false := by
    rcases hc0 with h | h | h <;> subst h <;> decide
  have htw : header.takeWhile classAZI = header.take t.toList.length := by
    conv_lhs => rw [← hsplit]
    rw [List.takeWhile_append_of_pos hAclass, hr, List.takeWhile_cons, hc0na]
    simp
  have hdw : header.dropWhile classAZI = header.drop t.toList.length := by
    conv_lhs => rw [← hsplit]
    rw [List.dropWhile_append_of_pos hAclass, hr, List.dropWhile_cons, hc0na]
    simp [← hr]
  have htlen : (header.take t.toList.length).length = t.toList.length := by
    rw [List.length_take]
    omega
  have hAne : ¬ (header.takeWhile classAZI).isEmpty = true := by
    rw [htw, List.isEmpty_iff]
    intro hcontra
    rw [hcontra] at htlen
    exact hne (List.length_eq_zero.mp htlen.symm)
  rw [hr] at hafter hdw
  unfold extractHeader
  rw [if_neg hAne, hdw]
  by_cases hpc : c0 = '('
  · subst hpc
    rw [matchAfterType, matchBangSep_paren, Bool.or_false] at hafter
    cases hp : parenScope ('(' :: r0) with
    | none => rw [hp] at hafter; simp at hafter
    | some pr =>
      obtain ⟨w, r2⟩ := pr
      rw [hp] at hafter
      simp only at hafter
      obtain ⟨bk, d, hbd, hdne⟩ := bangDesc_of_matchBangSep hafter
      have hcond : (('(' :: r0 : List Char).head? = some '(') := rfl
      rw [if_pos hcond]
      simp only [hbd, Option.map_some']
      exact ⟨some w, bk, d, rfl, hdne⟩
  · have hcond : ¬ ((c0 :: r0 : List Char).head? = some '(') := by
      simp [hpc]
    rw [if_neg hcond]
    rw [matchAfterType, parenScope_not_paren hpc] at hafter
    simp only [Bool.false_or] at hafter
    obtain ⟨bk, d, hbd, hdne⟩ := bangDesc_of_matchBangSep hafter
    simp only [hbd, Option.map_some']
    exact ⟨none, bk, d, rfl, hdne⟩

/-- Characterization of the scope group: it accepts exactly an opening
parenthesis, a non-empty run of letters (either case, thanks to
`re.IGNORECASE`) and hyphens, and a closing parenthesis. -/
theorem parenScope_some_iff {r w r2 : List Char} :
    parenScope r = some (w, r2) ↔
      r = '(' :: (w ++ ')' :: r2) ∧ w ≠ [] ∧ ∀ c ∈ w, scopeClassI c = true := by
  constructor
  · intro h
    cases r with
    | nil => simp [parenScope] at h
    | cons c rest =>
      simp only [parenScope] at h
      by_cases hc : c = '('
      · subst hc
        rw [if_pos rfl] at h
        by_cases hemp : (rest.takeWhile scopeClassI).isEmpty = true
        · rw [if_pos hemp] at h
          simp at h
        · rw [if_neg hemp] at h
          cases hdrop : rest.dropWhile scopeClassI with
          | nil =>
            rw [hdrop] at h
            simp at h
          | cons c2 rr =>
            rw [hdrop] at h
            have h' : (if c2 = ')' then some (rest.takeWhile scopeClassI, rr) else none)
                = some (w, r2) := h
            by_cases hc2 : c2 = ')'
            · rw [if_pos hc2] at h'
              injection h' with h''
              rw [Prod.mk.injEq] at h''
              obtain ⟨hw, hrr⟩ := h''
              subst hw
              subst hrr
              refine ⟨?_, ?_, ?_⟩
              · have hr := (List.takeWhile_append_dropWhile scopeClassI rest).symm
                rw [hdrop, hc2] at hr
                rw [← hr]
              · intro hnil
                rw [hnil] at hemp
                simp at hemp
              · intro c hcw
                exact List.mem_takeWhile_imp hcw
            · rw [if_neg hc2] at h'
              simp at h'
      · rw [if_neg hc] at h
        simp at h
  · rintro ⟨hr, hwne, hall⟩
    subst hr
    have hrp : scopeClassI ')' = false := by decide
    have htw : (w ++ ')' :: r2).takeWhile scopeClassI = w := by
      rw [List.takeWhile_append_of_pos hall, List.takeWhile_cons, hrp]
      simp
    have hdw : (w ++ ')' :: r2).dropWhile scopeClassI = ')' :: r2 := by
      rw [List.dropWhile_append_of_pos hall, List.dropWhile_cons, hrp]
      simp
    simp only [parenScope, htw, hdw]
    simp [List.isEmpty_iff, hwne]

/-- Any successful description capture sits right after a colon-space. -/
theorem descCapture_shape {r d : List Char} (h : descCapture r = some d) :
    ∃ t, r = ':' :: ' ' :: t := by
  cases r with
  | nil => simp [descCapture] at h
  | cons c1 t1 =>
    cases t1 with
    | nil => simp [descCapture] at h
    | cons c2 t2 =>
      simp only [descCapture] at h
      by_cases hc : c1 = ':' ∧ c2 = ' '
      · exact ⟨t2, by rw [hc.1, hc.2]⟩
      · rw [if_neg hc] at h
        simp at h

/-- Any successful bang-description match contains a colon-space. -/
theorem bangDesc_shape {r : List Char} {p : Bool × List Char}
    (h : bangDesc r = some p) :
    ∃ pre t, r = pre ++ ':' :: ' ' :: t := by
  cases r with
  | nil => simp [bangDesc] at h
  | cons c r2 =>
    simp only [bangDesc] at h
    by_cases hc : c = '!'
    · rw [if_pos hc] at h
      simp only [Option.map_eq_some'] at h
      obtain ⟨d', hd', _⟩ := h
      obtain ⟨t, ht⟩ := descCapture_shape hd'
      refine ⟨[c], t, ?_⟩
      rw [ht]
      rfl
    · rw [if_neg hc] at h
      simp only [Option.map_eq_some'] at h
      obtain ⟨d', hd', _⟩ := h
      obtain ⟨t, ht⟩ := descCapture_shape hd'
      exact ⟨[], t, ht⟩

/-- An extracted header contains a colon-space. -/
theorem extract_shape {header ty : List Char} {sc : Option (List Char)}
    {bk : Bool} {d : List Char}
    (h : extractHeader header = some (ty, sc, bk, d)) :
    ∃ l1 l2, header = l1 ++ ':' :: ' ' :: l2 := by
  have hsplit := List.takeWhile_append_dropWhile classAZI header
  unfold extractHeader at h
  by_cases hAne : (header.takeWhile classAZI).isEmpty = true
  · rw [if_pos hAne] at h
    simp at h
  · rw [if_neg hAne] at h
    by_cases hhead : (header.dropWhile classAZI).head? = some '('
    · rw [if_pos hhead] at h
      cases hp : parenScope (header.dropWhile classAZI) with
      | none =>
        rw [hp] at h
        simp at h
      | some pr =>
        obtain ⟨w, r2⟩ := pr
        rw [hp] at h
        simp only [Option.map_eq_some'] at h
        obtain ⟨bd, hbd, _⟩ := h
        obtain ⟨pre, t, ht⟩ := bangDesc_shape hbd
        obtain ⟨hps, -, -⟩ := parenScope_some_iff.mp hp
        refine ⟨header.takeWhile classAZI ++ '(' :: (w ++ ')' :: pre), t, ?_⟩
        conv_lhs => rw [← hsplit]
        rw [hps, ht]
        simp [List.append_assoc]
    · rw [if_neg hhead] at h
      simp only [Option.map_eq_some'] at h
      obtain ⟨bd, hbd, _⟩ := h
      obtain ⟨pre, t, ht⟩ := bangDesc_shape hbd
      refine ⟨header.takeWhile classAZI ++ pre, t, ?_⟩
      conv_lhs => rw [← hsplit]
      rw [ht]
      simp [List.append_assoc]

/-- Searching for colon-space succeeds on any list that contains one. -/
theorem findColonSpace_append (l1 l2 : List Char) :
    (findColonSpace (l1 ++ ':' :: ' ' :: l2)).isSome = true := by
  induction l1 with
  | nil => simp [findColonSpace]
  | cons c t ih =>
    rw [List.cons_append]
    simp only [findColonSpace]
    split
    · simp
    · simpa using ih

/-- An extracted header admits a successful colon-space search. -/
theorem findColonSpace_of_extract {header ty : List Char} {sc : Option (List Char)}
    {bk : Bool} {d : List Char}
    (h : extractHeader header = some (ty, sc, bk, d)) :
    ∃ pos, findColonSpace header = some pos := by
  obtain ⟨l1, l2, hh⟩ := extract_shape h
  have hs := findColonSpace_append l1 l2
  rw [← hh] at hs
  exact Option.isSome_iff_exists.mp hs

/-- When the format regex accepted the header, the type/scope check either
passes with no error or fails with a (single, non-empty) error list: the
extraction always succeeds and the description capture is non-empty, so
only the type-validity test can fail, and it appends an error when it
does.  (Both outcomes are reachable: exotic IGNORECASE spellings of a type
pass the format regex and fail the type test.) -/
theorem type_scope_parts_of_format {m : String}
    (h : formatHeaderMatch (headerOf m) = true) :
    ((validate_type_and_scope m).1 = true ∧ (validate_type_and_scope m).2.1 = []) ∨
    ((validate_type_and_scope m).1 = false ∧ (validate_type_and_scope m).2.1 ≠ []) := by
  obtain ⟨sc, bk, d, hext, hdne⟩ := extract_of_formatMatch h
  simp only [validate_type_and_scope, hext]
  by_cases hty : String.mk (pyLower ((headerOf m).takeWhile classAZI)) ∉ VALID_TYPES
  · rw [if_pos hty]
    right
    exact ⟨rfl, by simp⟩
  · rw [if_neg hty]
    have hde : ¬ d.isEmpty = true := by simp [List.isEmpty_iff, hdne]
    rw [if_neg hde]
    left
    exact ⟨rfl, rfl⟩

/-- When the header matches with the type spelled in ASCII, the type/scope
check passes and appends no error: the greedy class run is exactly the
ASCII-matched alternative and its Python lowercasing is the type name
itself, a key of `VALID_TYPES`. -/
theorem type_scope_of_ascii {m : String} (h : asciiHeaderMatch (headerOf m) = true) :
    ∃ w, validate_type_and_scope m = (true, [], w) := by
  obtain ⟨sc, bk, d, hext, hdne⟩ :=
    extract_of_formatMatch (ascii_implies_format h)
  rw [asciiHeaderMatch, List.any_eq_true] at h
  obtain ⟨t, ht, hm⟩ := h
  rw [Bool.and_eq_true] at hm
  obtain ⟨hmapb, hafter⟩ := hm
  have hmap : ((headerOf m).take t.toList.length).map Char.toLower = t.toList :=
    beq_iff_eq.mp hmapb
  obtain ⟨-, hne, hlower, hmem⟩ := format_types_facts t ht
  have halpha : ∀ c ∈ (headerOf m).take t.toList.length, c.isAlpha = true := by
    intro c hc
    apply isAlpha_of_toLower_isLower
    apply hlower
    rw [← hmap]
    exact List.mem_map_of_mem _ hc
  have hAclass : ∀ c ∈ (headerOf m).take t.toList.length, classAZI c = true := by
    intro c hc
    have ha := halpha c hc
    simp [classAZI, ha]
  obtain ⟨c0, r0, hr, hc0⟩ := matchAfterType_shape hafter
  have hc0na : classAZI c0 = false := by
    rcases hc0 with h | h | h <;> subst h <;> decide
  have hsplit : (headerOf m).take t.toList.length ++ (headerOf m).drop t.toList.length
      = headerOf m := List.take_append_drop _ _
  have htw : (headerOf m).takeWhile classAZI = (headerOf m).take t.toList.length := by
    conv_lhs => rw [← hsplit]
    rw [List.takeWhile_append_of_pos hAclass, hr, List.takeWhile_cons, hc0na]
    simp
  have hpl : String.mk (pyLower ((headerOf m).takeWhile classAZI)) = t := by
    rw [htw, pyLower_map_alpha _ halpha, hmap, mk_toList]
  have hmem2 : String.mk (pyLower ((headerOf m).takeWhile classAZI)) ∈ VALID_TYPES := by
    rw [hpl]
    exact hmem
  simp only [validate_type_and_scope, hext]
  rw [if_neg (not_not_intro hmem2)]
  have hde : ¬ d.isEmpty = true := by simp [List.isEmpty_iff, hdne]
  rw [if_neg hde]
  exact ⟨_, rfl⟩

/-- When the format regex accepted the header, the content-quality check
passes and appends no error. -/
theorem quality_of_format {m : String} (h : formatHeaderMatch (headerOf m) = true) :
    ∃ w, validate_content_quality m = (true, [], w) := by
  obtain ⟨sc, bk, d, hext, -⟩ := extract_of_formatMatch h
  obtain ⟨pos, hpos⟩ := findColonSpace_of_extract hext
  simp only [validate_content_quality, hpos]
  exact ⟨_, rfl⟩

/-- Unfolding of the orchestrator for non-empty input. -/
theorem validate_commit_message_eq (m : String)
    (hempty : ¬ (m.toList = [] ∨ pyStripL m.toList = [])) :
    validate_commit_message m =
      ((validate_format m).1 &&
         (if (validate_format m).1 = true then validate_type_and_scope m
          else (false, [], [])).1 &&
         (if (validate_format m).1 = true then validate_body_and_footer m
          else (false, [], [])).1 &&
         (if (validate_format m).1 = true then validate_content_quality m
          else (false, [], [])).1,
       (validate_format m).2.1 ++
         (if (validate_format m).1 = true then validate_type_and_scope m
          else (false, [], [])).2.1 ++
         (if (validate_format m).1 = true then validate_body_and_footer m
          else (false, [], [])).2.1 ++
         (if (validate_format m).1 = true then validate_content_quality m
          else (false, [], [])).2.1,
       (validate_format m).2.2 ++
         (if (validate_format m).1 = true then validate_type_and_scope m
          else (false, [], [])).2.2 ++
         (if (validate_format m).1 = true then validate_body_and_footer m
          else (false, [], [])).2.2 ++
         (if (validate_format m).1 = true then validate_content_quality m
          else (false, [], [])).2.2) := by
  unfold validate_commit_message
  rw [if_neg hempty]

/-- A passing format check appended no error and accepted the header. -/
theorem validate_format_true_parts {m : String} (h : (validate_format m).1 = true) :
    (validate_format m).2.1 = [] ∧ formatHeaderMatch (headerOf m) = true := by
  cases hl : splitOnNl (pyStripL m.toList) with
  | nil => exact absurd hl (splitOnNl_ne_nil _)
  | cons hd tl =>
    rw [headerOf_cons hl]
    simp only [validate_format, hl] at h ⊢
    by_cases h72 : hd.length > 72
    · rw [if_pos h72] at h
      simp at h
    · rw [if_neg h72] at h ⊢
      by_cases hfm : formatHeaderMatch hd = true
      · rw [if_pos hfm] at h ⊢
        exact ⟨rfl, hfm⟩
      · rw [if_neg hfm] at h
        simp at h

/-- A failing format check appended an error. -/
theorem validate_format_false_err {m : String} (h : (validate_format m).1 = false) :
    (validate_format m).2.1 ≠ [] := by
  cases hl : splitOnNl (pyStripL m.toList) with
  | nil => exact absurd hl (splitOnNl_ne_nil _)
  | cons hd tl =>
    simp only [validate_format, hl] at h ⊢
    by_cases h72 : hd.length > 72
    · rw [if_pos h72]
      simp
    · rw [if_neg h72] at h ⊢
      by_cases hfm : formatHeaderMatch hd = true
      · rw [if_pos hfm] at h
        simp at h
      · rw [if_neg hfm]
        simp

/-- Value of the format check on a length-acceptable, regex-accepted header. -/
theorem validate_format_of_ok {m : String} (h72 : ¬ (headerOf m).length > 72)
    (hfm : formatHeaderMatch (headerOf m) = true) :
    validate_format m = (true, [],
      if (headerOf m).length > 50 then [headerLongMsg (headerOf m).length] else []) := by
  cases hl : splitOnNl (pyStripL m.toList) with
  | nil => exact absurd hl (splitOnNl_ne_nil _)
  | cons hd tl =>
    rw [headerOf_cons hl] at h72 hfm ⊢
    simp only [validate_format, hl]
    rw [if_neg h72, if_pos hfm]

/-- The body/footer check either passes without errors or fails with exactly
the blank-line error. -/
theorem validate_body_parts (m : String) :
    ((validate_body_and_footer m).1 = true ∧ (validate_body_and_footer m).2.1 = []) ∨
    ((validate_body_and_footer m).1 = false ∧
      (validate_body_and_footer m).2.1 = [blankLineMsg]) := by
  unfold validate_body_and_footer
  split
  · left
    exact ⟨rfl, rfl⟩
  · split
    · right
      exact ⟨rfl, rfl⟩
    · left
      exact ⟨rfl, rfl⟩

/-- C2: the `is_valid` flag is true exactly when no error was collected. -/
theorem c2_valid_iff_no_errors (m : String) :
    (validate_commit_message m).1 = true ↔ (validate_commit_message m).2.1 = [] := by
  by_cases hempty : m.toList = [] ∨ pyStripL m.toList = []
  · unfold validate_commit_message
    rw [if_pos hempty]
    simp
  · rw [validate_commit_message_eq m hempty]
    by_cases hf : (validate_format m).1 = true
    · obtain ⟨hfe, hfm⟩ := validate_format_true_parts hf
      obtain ⟨wq, hq⟩ := quality_of_format hfm
      rcases type_scope_parts_of_format hfm with ⟨ht1, ht2⟩ | ⟨ht1, ht2⟩ <;>
        rcases validate_body_parts m with ⟨hb1, hb2⟩ | ⟨hb1, hb2⟩ <;>
        simp [hf, hq, ht1, ht2, hb1, hb2, hfe]
    · have hf' : (validate_format m).1 = false := by
        cases hx : (validate_format m).1
        · rfl
        · exact absurd hx hf
      have hne := validate_format_false_err hf'
      simp [hf', hne]

/-- Core validity argument shared by claims C1 and C6: a message whose
header matches the format pattern with the type spelled in ASCII, whose
header is at most 72 characters, and whose body (if any) is separated from
the header by a blank second line, is valid. -/
theorem wellformed_valid_core (m : String)
    (hfm : asciiHeaderMatch (headerOf m) = true)
    (h72 : (headerOf m).length ≤ 72)
    (hbody : (splitOnNl (pyStripL m.toList)).length < 2 ∨
      pyStripL ((splitOnNl (pyStripL m.toList)).getD 1 []) = []) :
    (validate_commit_message m).1 = true := by
  have hfm' : formatHeaderMatch (headerOf m) = true := ascii_implies_format hfm
  have hne : pyStripL m.toList ≠ [] := by
    intro he
    rw [headerOf_of_strip_nil he] at hfm'
    exact absurd hfm' (by decide)
  have hempty : ¬ (m.toList = [] ∨ pyStripL m.toList = []) := by
    rintro (he | he)
    · exact hne (strip_nil_of_toList_nil he)
    · exact hne he
  have h72' : ¬ (headerOf m).length > 72 := by omega
  have hfmt := validate_format_of_ok h72' hfm'
  obtain ⟨wt, hts⟩ := type_scope_of_ascii hfm
  obtain ⟨wq, hq⟩ := quality_of_format hfm'
  have hbody' : (validate_body_and_footer m).1 = true := by
    unfold validate_body_and_footer
    rcases hbody with hlt | hblank
    · rw [if_pos hlt]
    · by_cases hlt : (splitOnNl (pyStripL m.toList)).length < 2
      · rw [if_pos hlt]
      · rw [if_neg hlt]
        have hcond : ¬ (1 < (splitOnNl (pyStripL m.toList)).length ∧
            ¬ (pyStripL ((splitOnNl (pyStripL m.toList)).getD 1 [])).isEmpty = true) := by
          rintro ⟨-, hne2⟩
          rw [List.isEmpty_iff] at hne2
          exact hne2 hblank
        rw [if_neg hcond]
  rw [validate_commit_message_eq m hempty]
  simp [hfmt, hts, hq, hbody']

/-- C1 (amended): a message whose header matches the structural pattern
with the type token being one of the 14 valid type names up to ASCII
letter case, whose header is at most 72 characters, and whose body (if any)
is separated from the header by a blank second line, is valid. -/
theorem c1_wellformed_valid (m : String)
    (hfm : asciiHeaderMatch (headerOf m) = true)
    (h72 : (headerOf m).length ≤ 72)
    (hbody : (splitOnNl (pyStripL m.toList)).length < 2 ∨
      pyStripL ((splitOnNl (pyStripL m.toList)).getD 1 []) = []) :
    (validate_commit_message m).1 = true :=
  wellformed_valid_core m hfm h72 hbody

/-- Counterexample to C1 as stated: a pattern-matching, body-less message
with a 76-character header is rejected (the 72-character cap is part of the
format stage and is not mentioned in the claim). -/
theorem c1_counterexample :
    asciiHeaderMatch
        (headerOf ("feat: " ++ String.mk (List.replicate 70 'a'))) = true ∧
      (splitOnNl (pyStripL ("feat: " ++ String.mk (List.replicate 70 'a')).toList)).length
          < 2 ∧
      (validate_commit_message ("feat: " ++ String.mk (List.replicate 70 'a'))).1
          = false := by
  refine ⟨by decide, by decide, by decide⟩

/-- Witness for the amended C1 at a concrete well-formed message. -/
theorem c1_wellformed_valid_witness :
    (validate_commit_message "feat(cli): add complexity analysis command").1 = true :=
  c1_wellformed_valid "feat(cli): add complexity analysis command"
    (by decide) (by decide) (Or.inl (by decide))

/-- C5: a non-blank second line makes the body check fail with exactly the
blank-line error and the whole message invalid; with fewer than two lines the
body check passes and appends nothing. -/
theorem c5_blank_line_separation (m : String) :
    (2 ≤ (splitOnNl (pyStripL m.toList)).length →
      pyStripL ((splitOnNl (pyStripL m.toList)).getD 1 []) ≠ [] →
      validate_body_and_footer m = (false, [blankLineMsg], []) ∧
        (validate_commit_message m).1 = false) ∧
    ((splitOnNl (pyStripL m.toList)).length < 2 →
      validate_body_and_footer m = (true, [], [])) := by
  constructor
  · intro hlen hblank
    have hbody : validate_body_and_footer m = (false, [blankLineMsg], []) := by
      unfold validate_body_and_footer
      rw [if_neg (by omega)]
      rw [if_pos ⟨by omega, by rw [List.isEmpty_iff]; exact hblank⟩]
    refine ⟨hbody, ?_⟩
    have hempty : ¬ (m.toList = [] ∨ pyStripL m.toList = []) := by
      rintro (he | he)
      · rw [strip_nil_of_toList_nil he] at hlen
        exact absurd hlen (by decide)
      · rw [he] at hlen
        exact absurd hlen (by decide)
    rw [validate_commit_message_eq m hempty]
    by_cases hf : (validate_format m).1 = true
    · simp [hf, hbody]
    · have hf' : (validate_format m).1 = false := by
        cases hx : (validate_format m).1
        · rfl
        · exact absurd hx hf
      simp [hf']
  · intro hlt
    unfold validate_body_and_footer
    rw [if_pos hlt]

/-- Witness for C5: the two branches at concrete messages with a non-blank
second line and with a single line. -/
theorem c5_blank_line_separation_witness :
    (validate_body_and_footer "feat(cli): add complexity analysis\nThis should have a blank line above it."
        = (false, [blankLineMsg], []) ∧
      (validate_commit_message "feat(cli): add complexity analysis\nThis should have a blank line above it.").1
        = false) ∧
    validate_body_and_footer "feat(cli): add things" = (true, [], []) :=
  ⟨(c5_blank_line_separation _).1 (by decide) (by decide),
   (c5_blank_line_separation _).2 (by decide)⟩

/-- C6 (amended): a header of length in `(50, 72]` always produces a warning
mentioning "long"; the claim's validity conclusion additionally needs the
header to match the format pattern (with the type spelled in ASCII) and the
body separation to be proper, and then the message is valid. -/
theorem c6_long_header_warning (m : String)
    (h50 : 50 < (headerOf m).length) (h72 : (headerOf m).length ≤ 72) :
    (∃ w ∈ (validate_commit_message m).2.2, mentions "long" w = true) ∧
    (asciiHeaderMatch (headerOf m) = true →
      ((splitOnNl (pyStripL m.toList)).length < 2 ∨
        pyStripL ((splitOnNl (pyStripL m.toList)).getD 1 []) = []) →
      (validate_commit_message m).1 = true) := by
  have hne : pyStripL m.toList ≠ [] := by
    intro he
    rw [headerOf_of_strip_nil he] at h50
    simp at h50
  have hempty : ¬ (m.toList = [] ∨ pyStripL m.toList = []) := by
    rintro (he | he)
    · exact hne (strip_nil_of_toList_nil he)
    · exact hne he
  refine ⟨?_, fun hfm hbody => wellformed_valid_core m hfm h72 hbody⟩
  have hwarn : headerLongMsg (headerOf m).length ∈ (validate_format m).2.2 := by
    cases hl : splitOnNl (pyStripL m.toList) with
    | nil => exact absurd hl (splitOnNl_ne_nil _)
    | cons hd tl =>
      rw [headerOf_cons hl] at h50 h72 ⊢
      simp only [validate_format, hl]
      rw [if_neg (by omega : ¬ hd.length > 72)]
      by_cases hfm : formatHeaderMatch hd = true
      · rw [if_pos hfm]
        simp [if_pos (show hd.length > 50 by omega)]
      · rw [if_neg hfm]
        simp [if_pos (show hd.length > 50 by omega)]
  refine ⟨headerLongMsg (headerOf m).length, ?_, headerLongMsg_mentions _⟩
  rw [validate_commit_message_eq m hempty]
  exact List.mem_append.mpr (Or.inl (List.mem_append.mpr (Or.inl
    (List.mem_append.mpr (Or.inl hwarn)))))

/-- Counterexample to C6 as stated: sixty `x` characters form a header of
length in `(50, 72]`, yet the message is invalid (the claim omits the
format-match requirement). -/
theorem c6_counterexample :
    50 < (headerOf (String.mk (List.replicate 60 'x'))).length ∧
      (headerOf (String.mk (List.replicate 60 'x'))).length ≤ 72 ∧
      (validate_commit_message (String.mk (List.replicate 60 'x'))).1 = false := by
  refine ⟨by decide, by decide, by decide⟩

/-- Witness for the amended C6 at a concrete 66-character valid message. -/
theorem c6_long_header_warning_witness :
    (∃ w ∈ (validate_commit_message
        ("feat(cli): " ++ String.mk (List.replicate 55 'a'))).2.2,
      mentions "long" w = true) ∧
    (validate_commit_message ("feat(cli): " ++ String.mk (List.replicate 55 'a'))).1
      = true :=
  ⟨(c6_long_header_warning _ (by decide) (by decide)).1,
   (c6_long_header_warning _ (by decide) (by decide)).2 (by decide) (Or.inl (by decide))⟩

/-- No type of the alternation is a proper prefix of another, by
computation over the 14 by 14 pairs. -/
theorem format_types_no_overlap :
    ∀ t ∈ FORMAT_TYPES, ∀ t' ∈ FORMAT_TYPES,
      t'.toList = t.toList.take t'.toList.length → t' = t := by
  decide

/-- A scope run terminated by a character that is neither in the class nor
the closing parenthesis makes the scope group fail. -/
theorem parenScope_none_of_bad {w : List Char} {c : Char} {r2 : List Char}
    (hw : ∀ x ∈ w, scopeClassI x = true) (hc : scopeClassI c = false)
    (hcp : c ≠ ')') :
    parenScope ('(' :: (w ++ c :: r2)) = none := by
  have htw : (w ++ c :: r2).takeWhile scopeClassI = w := by
    rw [List.takeWhile_append_of_pos hw, List.takeWhile_cons, hc]
    simp
  have hdw : (w ++ c :: r2).dropWhile scopeClassI = c :: r2 := by
    rw [List.dropWhile_append_of_pos hw, List.dropWhile_cons, hc]
    simp
  simp only [parenScope, htw, hdw]
  simp [hcp]

/-- The whole tail match fails on such a malformed scope. -/
theorem matchAfterType_bad_scope {w : List Char} {c : Char} {r2 : List Char}
    (hw : ∀ x ∈ w, scopeClassI x = true) (hc : scopeClassI c = false)
    (hcp : c ≠ ')') :
    matchAfterType ('(' :: (w ++ c :: r2)) = false := by
  rw [matchAfterType, parenScope_none_of_bad hw hc hcp, matchBangSep_paren]
  rfl

/-- If some alternative matches case-insensitively at the front of a header
made of a type followed by an opening parenthesis, it is that type. -/
theorem matchLitCI_type_unique {t t' : String} {rest : List Char}
    (ht : t ∈ FORMAT_TYPES) (ht' : t' ∈ FORMAT_TYPES)
    (hlit : matchLitCI t'.toList (t.toList ++ '(' :: rest) = true) : t' = t := by
  obtain ⟨-, -, hlower', -⟩ := format_types_facts t' ht'
  obtain ⟨-, -, hlower, -⟩ := format_types_facts t ht
  by_cases hle : t'.toList.length ≤ t.toList.length
  · have htake : (t.toList ++ '(' :: rest).take t'.toList.length
        = t.toList.take t'.toList.length :=
      List.take_append_of_le_length hle
    have hxlow : ∀ x ∈ (t.toList ++ '(' :: rest).take t'.toList.length,
        x.isLower = true := by
      rw [htake]
      intro x hx
      exact hlower x (List.mem_of_mem_take hx)
    have heq := matchLitCI_take_eq _ _ hlower' hxlow hlit
    rw [htake] at heq
    exact format_types_no_overlap t ht t' ht' heq.symm
  · exfalso
    push_neg at hle
    obtain ⟨p, hp⟩ : ∃ p, t'.toList[t.toList.length]? = some p :=
      ⟨_, List.getElem?_eq_getElem hle⟩
    obtain ⟨x, hx, hlx⟩ := matchLitCI_class_at _ _ hlit _ p hp
    rw [List.getElem?_append_right (le_refl _)] at hx
    simp only [Nat.sub_self, List.getElem?_cons_zero] at hx
    injection hx with hx
    subst hx
    have hcls := litEqCI_lower_class (hlower' p (List.getElem?_mem hp)) hlx
    exact absurd hcls (by decide)

/-- A header of the form type-plus-malformed-scope is rejected by the full
format regex. -/
theorem formatHeaderMatch_bad_scope {t : String} {w : List Char} {c : Char}
    {r2 : List Char}
    (ht : t ∈ FORMAT_TYPES) (hw : ∀ x ∈ w, scopeClassI x = true)
    (hc : scopeClassI c = false) (hcp : c ≠ ')') :
    formatHeaderMatch (t.toList ++ '(' :: (w ++ c :: r2)) = false := by
  rw [formatHeaderMatch, List.any_eq_false]
  intro t' ht'
  simp only [Bool.and_eq_true, not_and]
  intro hlit
  have heq : t' = t := matchLitCI_type_unique ht ht' hlit
  subst heq
  rw [List.drop_left, matchAfterType_bad_scope hw hc hcp]
  simp

/-- Value of the format check on a length-acceptable header the regex
rejects. -/
theorem validate_format_no_match {m : String} (h72 : ¬ (headerOf m).length > 72)
    (hfm : formatHeaderMatch (headerOf m) = false) :
    validate_format m = (false, [invalidFormatMsg (String.mk (headerOf m))],
      if (headerOf m).length > 50 then [headerLongMsg (headerOf m).length] else []) := by
  cases hl : splitOnNl (pyStripL m.toList) with
  | nil => exact absurd hl (splitOnNl_ne_nil _)
  | cons hd tl =>
    rw [headerOf_cons hl] at h72 hfm ⊢
    simp only [validate_format, hl]
    rw [if_neg h72, if_neg (by simp [hfm])]

/-- C7 (amended): the scope group accepts exactly a non-empty run of scope
class characters - under `re.IGNORECASE` the class `[a-z-]` matches the
ASCII letters of either case, the hyphen, and the four Unicode code points
whose case folds into `a`-`z` (U+0130, U+0131, U+017F, U+212A) - followed by
a closing parenthesis; a header built from a valid type and a scope run
terminated by a character that is neither in that class nor the closing
parenthesis fails the format check with the invalid-header-format error and
the message is invalid (given the header is within the 72-character cap). -/
theorem c7_scope_class :
    (∀ r w r2 : List Char, parenScope r = some (w, r2) ↔
      (r = '(' :: (w ++ ')' :: r2) ∧ w ≠ [] ∧ ∀ c ∈ w, scopeClassI c = true)) ∧
    (∀ (m t : String) (w : List Char) (c : Char) (r2 : List Char),
      t ∈ FORMAT_TYPES →
      headerOf m = t.toList ++ '(' :: (w ++ c :: r2) →
      (∀ x ∈ w, scopeClassI x = true) →
      scopeClassI c = false → c ≠ ')' →
      (headerOf m).length ≤ 72 →
      (validate_commit_message m).1 = false ∧
        invalidFormatMsg (String.mk (headerOf m)) ∈ (validate_commit_message m).2.1) := by
  refine ⟨fun r w r2 => parenScope_some_iff, ?_⟩
  intro m t w c r2 ht hheader hw hc hcp h72
  have hfm : formatHeaderMatch (headerOf m) = false := by
    rw [hheader]
    exact formatHeaderMatch_bad_scope ht hw hc hcp
  have hne : pyStripL m.toList ≠ [] := by
    intro he
    rw [headerOf_of_strip_nil he] at hheader
    have hlen := congrArg List.length hheader
    simp [List.length_append] at hlen
    omega
  have hempty : ¬ (m.toList = [] ∨ pyStripL m.toList = []) := by
    rintro (he | he)
    · exact hne (strip_nil_of_toList_nil he)
    · exact hne he
  have h72' : ¬ (headerOf m).length > 72 := by omega
  have hfmt := validate_format_no_match h72' hfm
  rw [validate_commit_message_eq m hempty]
  constructor
  · simp [hfmt]
  · simp [hfmt]

/-- Counterexample to C7 as stated: an uppercase scope passes the header
pattern and the whole validation, contrary to the claimed lowercase-only
scope matching. -/
theorem c7_counterexample :
    formatHeaderMatch (headerOf "feat(CLI): add new stuff") = true ∧
      (validate_commit_message "feat(CLI): add new stuff").1 = true :=
  ⟨by decide, by decide⟩

/-- Witness for the amended C7 at a scope containing a digit. -/
theorem c7_scope_class_witness :
    (validate_commit_message "feat(c2i): add new stuff").1 = false ∧
      invalidFormatMsg (String.mk (headerOf "feat(c2i): add new stuff"))
        ∈ (validate_commit_message "feat(c2i): add new stuff").2.1 :=
  c7_scope_class.2 "feat(c2i): add new stuff" "feat" ['c'] '2'
    ("i): add new stuff".toList)
    (by decide) (by decide) (by decide) (by decide) (by decide) (by decide)

/-- Regrouping of the vagueness warning for index reasoning. -/
theorem vagueMsg_toList (d : String) :
    (vagueMsg d).toList = ("Description " ++ sQuote).toList ++
      (d.toList ++
        (sQuote ++ " is too vague. Be more specific about what was changed.").toList) := by
  simp [vagueMsg, toList_append, List.append_assoc]

/-- The vagueness warning has a quote at index 12. -/
theorem vagueMsg_quote (d : String) :
    (vagueMsg d).toList[12]? = some (Char.ofNat 39) := by
  rw [vagueMsg_toList, List.getElem?_append_left (by decide)]
  decide

/-- The vagueness warning starts with a capital D. -/
theorem vagueMsg_head (d : String) : (vagueMsg d).toList[0]? = some 'D' := by
  rw [vagueMsg_toList, List.getElem?_append_left (by decide)]
  decide

/-- First characters survive appending on the right. -/
theorem getElem0_append_str (s t : String) {c : Char} (h : s.toList[0]? = some c) :
    (s ++ t).toList[0]? = some c := by
  rw [toList_append, List.getElem?_append_left]
  · exact h
  · cases hl : s.toList
    · rw [hl] at h
      simp at h
    · simp [hl]

/-- The imperative-mood warning starts with a capital C. -/
theorem imperativeMsg_head (e : String) : (imperativeMsg e).toList[0]? = some 'C' := by
  unfold imperativeMsg
  repeat apply getElem0_append_str
  decide

/-- The header-long warning starts with a capital H. -/
theorem headerLongMsg_head (n : Nat) : (headerLongMsg n).toList[0]? = some 'H' := by
  unfold headerLongMsg
  repeat apply getElem0_append_str
  decide

/-- The unknown-scope warning starts with a capital U. -/
theorem unknownScopeMsg_head (s : String) :
    (unknownScopeMsg s).toList[0]? = some 'U' := by
  unfold unknownScopeMsg
  repeat apply getElem0_append_str
  decide

/-- The line-too-long warning starts with a capital L. -/
theorem lineTooLongMsg_head (i n : Nat) :
    (lineTooLongMsg i n).toList[0]? = some 'L' := by
  unfold lineTooLongMsg
  repeat apply getElem0_append_str
  decide

/-- Two strings differing at a position differ. -/
theorem vagueMsg_ne_of_head (s : String) (c : Char) (hs : s.toList[0]? = some c)
    (hc : c ≠ 'D') (d : String) : vagueMsg d ≠ s := by
  intro h
  have hd := vagueMsg_head d
  rw [h, hs] at hd
  injection hd with h'
  exact hc h'

/-- Two strings differing at index 12 differ. -/
theorem vagueMsg_ne_of_12 (s : String) (c : Char) (hs : s.toList[12]? = some c)
    (hc : c ≠ Char.ofNat 39) (d : String) : vagueMsg d ≠ s := by
  intro h
  have hq := vagueMsg_quote d
  rw [h, hs] at hq
  injection hq with h'
  exact hc h'

/-- The vagueness warning differs from every other warning the validator can
produce. -/
theorem vagueMsg_ne_short (d : String) : vagueMsg d ≠ shortDescMsg :=
  vagueMsg_ne_of_12 shortDescMsg 's' (by decide) (by decide) d

/-- Vagueness versus imperative-mood warnings. -/
theorem vagueMsg_ne_imperative (d e : String) : vagueMsg d ≠ imperativeMsg e :=
  vagueMsg_ne_of_head (imperativeMsg e) 'C' (imperativeMsg_head e) (by decide) d

/-- Vagueness versus header-long warnings. -/
theorem vagueMsg_ne_headerLong (d : String) (n : Nat) :
    vagueMsg d ≠ headerLongMsg n :=
  vagueMsg_ne_of_head (headerLongMsg n) 'H' (headerLongMsg_head n) (by decide) d

/-- Vagueness versus unknown-scope warnings. -/
theorem vagueMsg_ne_unknownScope (d s : String) :
    vagueMsg d ≠ unknownScopeMsg s :=
  vagueMsg_ne_of_head (unknownScopeMsg s) 'U' (unknownScopeMsg_head s) (by decide) d

/-- Vagueness versus lowercase-start warnings. -/
theorem vagueMsg_ne_lowercase (d : String) : vagueMsg d ≠ lowercaseMsg :=
  vagueMsg_ne_of_12 lowercaseMsg 's' (by decide) (by decide) d

/-- Vagueness versus trailing-period warnings. -/
theorem vagueMsg_ne_period (d : String) : vagueMsg d ≠ periodMsg :=
  vagueMsg_ne_of_12 periodMsg 's' (by decide) (by decide) d

/-- Vagueness versus breaking-change warnings. -/
theorem vagueMsg_ne_breaking (d : String) : vagueMsg d ≠ breakingMsg :=
  vagueMsg_ne_of_head breakingMsg 'B' (by decide) (by decide) d

/-- Vagueness versus line-length warnings. -/
theorem vagueMsg_ne_lineTooLong (d : String) (i n : Nat) :
    vagueMsg d ≠ lineTooLongMsg i n :=
  vagueMsg_ne_of_head (lineTooLongMsg i n) 'L' (lineTooLongMsg_head i n) (by decide) d

/-- Every warning the type/scope check can append is an unknown-scope,
lowercase-start, trailing-period or breaking-change warning. -/
theorem type_scope_warnings_forms (m : String) :
    ∀ x ∈ (validate_type_and_scope m).2.2,
      (∃ s, x = unknownScopeMsg s) ∨ x = lowercaseMsg ∨ x = periodMsg ∨
        x = breakingMsg := by
  unfold validate_type_and_scope
  cases hext : extractHeader (headerOf m) with
  | none => simp
  | some q =>
    obtain ⟨ty, sc, bk, de⟩ := q
    intro x hx
    simp only at hx
    cases sc with
    | none =>
      split_ifs at hx <;> simp_all <;> tauto
    | some s =>
      split_ifs at hx <;> simp_all <;> tauto

/-- Every warning of the body-line loop is a line-length warning. -/
theorem bodyLineWarnings_forms :
    ∀ (ls : List (List Char)) (i : Nat) (x : String), x ∈ bodyLineWarnings i ls →
      ∃ a b, x = lineTooLongMsg a b := by
  intro ls
  induction ls with
  | nil =>
    intro i x hx
    simp [bodyLineWarnings] at hx
  | cons l t ih =>
    intro i x hx
    simp only [bodyLineWarnings] at hx
    rw [List.mem_append] at hx
    rcases hx with hx | hx
    · by_cases h : l.length > 72
      · rw [if_pos h] at hx
        simp at hx
        exact ⟨i, l.length, hx⟩
      · rw [if_neg h] at hx
        simp at hx
    · exact ih _ _ hx

/-- Every warning of the body/footer check is a line-length warning. -/
theorem body_warnings_forms (m : String) :
    ∀ x ∈ (validate_body_and_footer m).2.2, ∃ a b, x = lineTooLongMsg a b := by
  unfold validate_body_and_footer
  split_ifs <;> intro x hx
  · simp at hx
  · simp at hx
  · exact bodyLineWarnings_forms _ _ _ hx

/-- The vagueness warning for the extracted description sits in the
content-quality warnings exactly when the lowercased trimmed description is
one of the seven vague words. -/
theorem vague_mem_quality {m : String} {pos : Nat}
    (hpos : findColonSpace (headerOf m) = some pos) :
    (vagueMsg (String.mk (pyStripL ((headerOf m).drop (pos + 2))))
        ∈ (validate_content_quality m).2.2) ↔
      (VAGUE_WORDS.any fun w =>
        pyStripL (pyLower (pyStripL ((headerOf m).drop (pos + 2)))) == w.toList)
        = true := by
  simp only [validate_content_quality, hpos]
  by_cases hcond : (VAGUE_WORDS.any fun w =>
      pyStripL (pyLower (pyStripL ((headerOf m).drop (pos + 2)))) == w.toList) = true
  · rw [if_pos hcond]
    refine ⟨fun _ => hcond, fun _ => ?_⟩
    simp
  · simp only [hcond, if_false, Bool.false_eq_true]
    constructor
    · intro hmem
      rw [List.nil_append, List.mem_append] at hmem
      rcases hmem with hmem | hmem
      · split_ifs at hmem <;> simp_all
        exact vagueMsg_ne_short _ hmem
      · split_ifs at hmem <;> simp_all
        exact vagueMsg_ne_imperative _ _ hmem
    · intro hfalse
      exact absurd hfalse (by simp [hcond])

/-- C8: for a message whose header passes the format stage, the vagueness
warning for the extracted description appears among the returned warnings
exactly when the trimmed description, lowercased, equals one of the seven
vague words; no other warning can coincide with it, so a longer description
merely containing a vague word is never flagged. -/
theorem c8_vague_iff (m : String) (pos : Nat)
    (hfm : formatHeaderMatch (headerOf m) = true)
    (h72 : (headerOf m).length ≤ 72)
    (hpos : findColonSpace (headerOf m) = some pos) :
    (vagueMsg (String.mk (pyStripL ((headerOf m).drop (pos + 2))))
        ∈ (validate_commit_message m).2.2) ↔
      (VAGUE_WORDS.any fun w =>
        pyStripL (pyLower (pyStripL ((headerOf m).drop (pos + 2)))) == w.toList)
        = true := by
  have hne : pyStripL m.toList ≠ [] := by
    intro he
    rw [headerOf_of_strip_nil he] at hfm
    exact absurd hfm (by decide)
  have hempty : ¬ (m.toList = [] ∨ pyStripL m.toList = []) := by
    rintro (he | he)
    · exact hne (strip_nil_of_toList_nil he)
    · exact hne he
  have hfmt := validate_format_of_ok (by omega) hfm
  have hf1 : (validate_format m).1 = true := by rw [hfmt]
  rw [validate_commit_message_eq m hempty]
  simp only [hf1, if_pos rfl]
  rw [List.mem_append, List.mem_append, List.mem_append]
  constructor
  · rintro (((hx | hx) | hx) | hx)
    · rw [hfmt] at hx
      by_cases h50 : (headerOf m).length > 50
      · rw [if_pos h50] at hx
        simp at hx
        exact absurd hx (vagueMsg_ne_headerLong _ _)
      · rw [if_neg h50] at hx
        simp at hx
    · rcases type_scope_warnings_forms m _ hx with ⟨s, hs⟩ | hs | hs | hs
      · exact absurd hs (vagueMsg_ne_unknownScope _ _)
      · exact absurd hs (vagueMsg_ne_lowercase _)
      · exact absurd hs (vagueMsg_ne_period _)
      · exact absurd hs (vagueMsg_ne_breaking _)
    · obtain ⟨a, b, hab⟩ := body_warnings_forms m _ hx
      exact absurd hab (vagueMsg_ne_lineTooLong _ _ _)
    · exact (vague_mem_quality hpos).mp hx
  · intro hcond
    exact Or.inr ((vague_mem_quality hpos).mpr hcond)

/-- Witness for C8, both directions at concrete messages: a bare vague word
is flagged; a longer description containing the word is not. -/
theorem c8_vague_iff_witness :
    ((vagueMsg (String.mk (pyStripL ((headerOf "feat(cli): fix").drop (9 + 2))))
        ∈ (validate_commit_message "feat(cli): fix").2.2) ↔
      (VAGUE_WORDS.any fun w =>
        pyStripL (pyLower (pyStripL ((headerOf "feat(cli): fix").drop (9 + 2))))
          == w.toList) = true) ∧
    ((vagueMsg (String.mk (pyStripL ((headerOf "feat(cli): fix the parser bug").drop (9 + 2))))
        ∈ (validate_commit_message "feat(cli): fix the parser bug").2.2) ↔
      (VAGUE_WORDS.any fun w =>
        pyStripL (pyLower (pyStripL ((headerOf "feat(cli): fix the parser bug").drop (9 + 2))))
          == w.toList) = true) :=
  ⟨c8_vague_iff "feat(cli): fix" 9 (by decide) (by decide) (by decide),
   c8_vague_iff "feat(cli): fix the parser bug" 9 (by decide) (by decide) (by decide)⟩

/-- The line list always has a first line, the header. -/
theorem head?_lines (m : String) :
    (splitOnNl (pyStripL m.toList)).head? = some (headerOf m) := by
  cases hl : splitOnNl (pyStripL m.toList) with
  | nil => exact absurd hl (splitOnNl_ne_nil _)
  | cons hd tl =>
    rw [headerOf_cons hl]
    rfl

/-- The crash-aware type/scope check never raises and agrees with the total
embedding: its two unguarded indexes are in fact always in range. -/
theorem type_scope_opt_eq (m : String) :
    validate_type_and_scope_opt m = some (validate_type_and_scope m) := by
  unfold validate_type_and_scope_opt validate_type_and_scope
  rw [if_neg (by rw [head?_lines]; simp)]
  cases hext : extractHeader (headerOf m) with
  | none => rfl
  | some q =>
    obtain ⟨ty, sc, bk, de⟩ := q
    simp only
    by_cases h1 : String.mk (pyLower ty) ∉ VALID_TYPES
    · simp only [if_pos h1]
    · simp only [if_neg h1]
      by_cases h2 : de.isEmpty = true
      · simp only [if_pos h2]
      · simp only [if_neg h2]
        cases hde : de with
        | nil =>
          rw [hde] at h2
          simp at h2
        | cons c0 dt => rfl

/-- The crash-aware content-quality check never raises and agrees with the
total embedding. -/
theorem quality_opt_eq (m : String) :
    validate_content_quality_opt m = some (validate_content_quality m) := by
  unfold validate_content_quality_opt validate_content_quality
  rw [if_neg (by rw [head?_lines]; simp)]
  cases hfind : findColonSpace (headerOf m) with
  | none => rfl
  | some pos => rfl

/-- The crash-aware body/footer check never raises and agrees with the total
embedding: the guarded `lines[1]` access is in range whenever evaluated. -/
theorem body_opt_eq (m : String) :
    validate_body_and_footer_opt m = some (validate_body_and_footer m) := by
  unfold validate_body_and_footer_opt validate_body_and_footer
  by_cases h1 : (splitOnNl (pyStripL m.toList)).length < 2
  · simp only [if_pos h1]
  · simp only [if_neg h1]
    have h2 : 1 < (splitOnNl (pyStripL m.toList)).length := by omega
    rw [if_pos h2]
    obtain ⟨l1, hl1⟩ : ∃ l1, (splitOnNl (pyStripL m.toList)).get? 1 = some l1 :=
      ⟨_, by rw [List.get?_eq_getElem?]; exact List.getElem?_eq_getElem h2⟩
    rw [if_neg (by rw [hl1]; simp)]
    by_cases h3 : (pyStripL ((splitOnNl (pyStripL m.toList)).getD 1 [])).isEmpty = true
    · rw [if_neg (not_not_intro h3)]
      rw [if_neg (fun hcontra => hcontra.2 h3)]
    · rw [if_pos h3]
      rw [if_pos ⟨h2, h3⟩]

/-- C9: the validator is total.  The crash-aware embedding, in which every
unguarded Python index is an `Option` access and `none` stands for a raised
`IndexError`, always returns `some` of the total embedding's result: the
first-character and first-word accesses on the description are only reached
with a non-empty description, and the line accesses are always in range. -/
theorem c9_validator_total (m : String) :
    validate_commit_message_opt m = some (validate_commit_message m) := by
  unfold validate_commit_message_opt
  by_cases hempty : m.toList = [] ∨ pyStripL m.toList = []
  · rw [if_pos hempty]
    unfold validate_commit_message
    rw [if_pos hempty]
  · rw [if_neg hempty, validate_commit_message_eq m hempty]
    by_cases hf : (validate_format m).1 = true
    · simp only [if_pos hf, type_scope_opt_eq, body_opt_eq, quality_opt_eq]
    · simp only [if_neg hf]

/-- The head surviving a `dropWhile` fails the predicate. -/
theorem head_dropWhile_not {α} (p : α → Bool) :
    ∀ (l : List α) (c : α), (l.dropWhile p).head? = some c → p c = false := by
  intro l
  induction l with
  | nil =>
    intro c h
    simp [List.dropWhile] at h
  | cons a t ih =>
    intro c h
    rw [List.dropWhile_cons] at h
    by_cases hp : p a = true
    · rw [if_pos hp] at h
      exact ih c h
    · rw [if_neg hp, List.head?_cons] at h
      injection h with h'
      subst h'
      simpa using hp

/-- A list whose head fails the predicate is fixed by `dropWhile`. -/
theorem dropWhile_of_head_not {α} {p : α → Bool} {l : List α} {c : α}
    (h : l.head? = some c) (hc : p c = false) : l.dropWhile p = l := by
  cases l with
  | nil => simp at h
  | cons a t =>
    rw [List.head?_cons] at h
    injection h with h'
    subst h'
    rw [List.dropWhile_cons, hc]
    simp

/-- Dropping from the front preserves the last element. -/
theorem getLast?_dropWhile {α} (p : α → Bool) :
    ∀ l : List α, l.dropWhile p ≠ [] → (l.dropWhile p).getLast? = l.getLast? := by
  intro l
  induction l with
  | nil =>
    intro h
    simp [List.dropWhile] at h
  | cons a t ih =>
    intro h
    rw [List.dropWhile_cons] at h ⊢
    by_cases hp : p a = true
    · rw [if_pos hp] at h ⊢
      rw [ih h]
      have ht : t ≠ [] := by
        intro he
        rw [he] at h
        simp [List.dropWhile] at h
      cases t with
      | nil => exact absurd rfl ht
      | cons b u => rw [List.getLast?_cons_cons]
    · rw [if_neg hp]

/-- Python `strip` is idempotent. -/
theorem pyStripL_idem (l : List Char) : pyStripL (pyStripL l) = pyStripL l := by
  unfold pyStripL
  cases hb : (l.dropWhile pyIsSpace).reverse.dropWhile pyIsSpace with
  | nil => rfl
  | cons ch bt =>
    cases hc0 : (l.dropWhile pyIsSpace).head? with
    | none =>
      exfalso
      have hnil : l.dropWhile pyIsSpace = [] := by
        cases hx : l.dropWhile pyIsSpace
        · rfl
        · rw [hx] at hc0
          simp at hc0
      rw [hnil] at hb
      simp [List.dropWhile] at hb
    | some c0 =>
      have hc0f : pyIsSpace c0 = false := head_dropWhile_not pyIsSpace l c0 hc0
      have hBhead : ((ch :: bt) : List Char).reverse.head? = some c0 := by
        rw [List.head?_reverse, ← hb,
          getLast?_dropWhile pyIsSpace _ (by rw [hb]; simp),
          List.getLast?_reverse, hc0]
      have hstep : ((ch :: bt) : List Char).reverse.dropWhile pyIsSpace
          = (ch :: bt).reverse := dropWhile_of_head_not hBhead hc0f
      have hch : pyIsSpace ch = false :=
        head_dropWhile_not pyIsSpace (l.dropWhile pyIsSpace).reverse ch (by rw [hb]; rfl)
      rw [hstep, List.reverse_reverse, List.dropWhile_cons, hch]
      simp

/-- The first line is unchanged by pre-stripping. -/
theorem headerOf_strip (m : String) : headerOf (pyStrip m) = headerOf m := by
  unfold headerOf
  rw [show pyStripL (pyStrip m).toList = pyStripL m.toList from pyStripL_idem _]

/-- C10: validating a message and validating its stripped form give exactly
the same result: every sub-check re-strips the input, and stripping is
idempotent. -/
theorem c10_strip_invariant (m : String) :
    validate_commit_message m = validate_commit_message (pyStrip m) := by
  have hid : pyStripL ((pyStrip m).toList) = pyStripL m.toList := pyStripL_idem _
  by_cases hB : pyStripL m.toList = []
  · unfold validate_commit_message
    rw [if_pos (Or.inr hB), if_pos (Or.inr (by rw [hid]; exact hB))]
  · have hemptyL : ¬ (m.toList = [] ∨ pyStripL m.toList = []) := by
      rintro (he | he)
      · exact hB (strip_nil_of_toList_nil he)
      · exact hB he
    have hemptyR : ¬ ((pyStrip m).toList = [] ∨ pyStripL (pyStrip m).toList = []) := by
      rintro (he | he)
      · exact hB he
      · rw [hid] at he
        exact hB he
    have hh := headerOf_strip m
    have hf : validate_format (pyStrip m) = validate_format m := by
      unfold validate_format
      rw [hid]
    have hts : validate_type_and_scope (pyStrip m) = validate_type_and_scope m := by
      unfold validate_type_and_scope
      rw [hh]
    have hq : validate_content_quality (pyStrip m) = validate_content_quality m := by
      unfold validate_content_quality
      rw [hh]
    have hbf : validate_body_and_footer (pyStrip m) = validate_body_and_footer m := by
      unfold validate_body_and_footer
      rw [hid]
    rw [validate_commit_message_eq m hemptyL, validate_commit_message_eq _ hemptyR,
      hf, hts, hq, hbf]
